import Mathlib

/-!
Shallow embedding of the CHIP-8 interpreter core (`src/processor.rs`) and
verification of the specification claims against it.

Machine integers are modelled as `Nat` with explicit wrapping (`% 256`,
`% 65536`) where the Rust code wraps, and with explicit overflow /
bounds checks returning `Except String _` where the Rust code would
panic (debug-profile checked arithmetic and array indexing).  Arrays of
the Rust struct are modelled as total functions `Nat → _`; every Rust
array access goes through an explicit bounds check mirroring the panic
on out-of-range indices.
-/

namespace Chip8

/-- Constant from processor.rs. -/
def ROM_START_ADDRESS : Nat := 0x200

/-- Constant from processor.rs. -/
def FONTSET_START_ADDRESS : Nat := 0x50

/-- Constant from processor.rs. -/
def REGISTERS_SIZE : Nat := 16

/-- Constant from processor.rs. -/
def MEMORY_SIZE : Nat := 4096

/-- Constant from processor.rs. -/
def STACK_SIZE : Nat := 16

/-- Constant from processor.rs. -/
def KEYPAD_SIZE : Nat := 16

/-- Constant from processor.rs. -/
def SCREEN_WIDTH : Nat := 64

/-- Constant from processor.rs. -/
def SCREEN_HEIGHT : Nat := 32

/-- Constant from processor.rs. -/
def CARRY_REGISTER : Nat := 0xF

/-- Constant from processor.rs. -/
def FONT_CHARACTER_BYTES : Nat := 5

/-- The machine state of `struct Processor` in processor.rs.  Arrays are
modelled as total functions; the meaningful domain of each is noted. -/
@[ext]
structure Processor where
  /-- Field `registers: [u8; 16]`, meaningful at indices `0..16`, values `< 256`. -/
  registers : Nat → Nat
  /-- Field `memory: [u8; 4096]`, meaningful at indices `0..4096`, values `< 256`. -/
  memory : Nat → Nat
  /-- Field `index: u16`. -/
  index : Nat
  /-- Field `pc: u16`. -/
  pc : Nat
  /-- Field `stack: [u16; 16]`. -/
  stack : Nat → Nat
  /-- Field `sp: u8`. -/
  sp : Nat
  /-- Field `delay_timer: u8`. -/
  delay_timer : Nat
  /-- Field `sound_timer: u8`. -/
  sound_timer : Nat
  /-- Field `keypad: [bool; 16]`. -/
  keypad : Nat → Bool
  /-- Field `video: [[u8; 64]; 32]`, row-major: `video y x`. -/
  video : Nat → Nat → Nat
  /-- Field `opcode: u16`. -/
  opcode : Nat

/-- Pointwise update of a function array (the effect of `a[i] = v`). -/
def upd {α : Type} (f : Nat → α) (i : Nat) (v : α) : Nat → α :=
  fun j => if j = i then v else f j

/-- Pointwise update of a two-dimensional function array. -/
def upd2 (f : Nat → Nat → Nat) (i j : Nat) (v : Nat) : Nat → Nat → Nat :=
  fun a b => if a = i ∧ b = j then v else f a b

/-- Checked `u8` addition: Rust `a + b` on `u8` panics on overflow. -/
def u8add (a b : Nat) : Except String Nat :=
  if a + b ≤ 255 then .ok (a + b) else .error "attempt to add with overflow"

/-- Checked `u8` subtraction: Rust `a - b` on `u8` panics on underflow. -/
def u8sub (a b : Nat) : Except String Nat :=
  if b ≤ a then .ok (a - b) else .error "attempt to subtract with overflow"

/-- Checked `u8` multiplication: Rust `a * b` on `u8` panics on overflow. -/
def u8mul (a b : Nat) : Except String Nat :=
  if a * b ≤ 255 then .ok (a * b) else .error "attempt to multiply with overflow"

/-- Checked `u16` addition: Rust `a + b` on `u16` panics on overflow. -/
def u16add (a b : Nat) : Except String Nat :=
  if a + b ≤ 65535 then .ok (a + b) else .error "attempt to add with overflow"

/-- Checked `u16` subtraction: Rust `a - b` on `u16` panics on underflow. -/
def u16sub (a b : Nat) : Except String Nat :=
  if b ≤ a then .ok (a - b) else .error "attempt to subtract with overflow"

/-- Checked array index: Rust `arr[i]` with `arr.len() == size` panics when
`i ≥ size`.  Returns the index when it is in bounds. -/
def checkIdx (size i : Nat) : Except String Nat :=
  if i < size then .ok i else .error "index out of bounds"

/-- Wrapping `u8` subtraction (`u8::wrapping_sub`), for arguments `< 256`. -/
def wrapping_sub (a b : Nat) : Nat := (256 + a - b) % 256

/-- Modelled from the spec: the 80-byte hex-digit font (`FONTSET` lives in
the missing source file `src/font.rs`; the spec fixes it to "the standard
0–F 5-byte glyphs" whose bit patterns "must match the commonly published
tables"). -/
def FONTSET : List Nat :=
  [0xF0, 0x90, 0x90, 0x90, 0xF0,
   0x20, 0x60, 0x20, 0x20, 0x70,
   0xF0, 0x10, 0xF0, 0x80, 0xF0,
   0xF0, 0x10, 0xF0, 0x10, 0xF0,
   0x90, 0x90, 0xF0, 0x10, 0x10,
   0xF0, 0x80, 0xF0, 0x10, 0xF0,
   0xF0, 0x80, 0xF0, 0x90, 0xF0,
   0xF0, 0x10, 0x20, 0x40, 0x40,
   0xF0, 0x90, 0xF0, 0x90, 0xF0,
   0xF0, 0x90, 0xF0, 0x10, 0xF0,
   0xF0, 0x90, 0xF0, 0x90, 0x90,
   0xE0, 0x90, 0xE0, 0x90, 0xE0,
   0xF0, 0x80, 0x80, 0x80, 0xF0,
   0xE0, 0x90, 0x90, 0x90, 0xE0,
   0xF0, 0x80, 0xF0, 0x80, 0xF0,
   0xF0, 0x80, 0xF0, 0x80, 0x80]

/-- Source `Processor::new()`: zeroed state, `pc = 0x200`, font copied to
`memory[0x50 ..]`. -/
def Processor.new : Processor :=
  { registers := fun _ => 0
    memory := fun a =>
      if FONTSET_START_ADDRESS ≤ a ∧ a < FONTSET_START_ADDRESS + FONTSET.length then
        FONTSET.getD (a - FONTSET_START_ADDRESS) 0
      else 0
    index := 0
    pc := ROM_START_ADDRESS
    stack := fun _ => 0
    sp := 0
    delay_timer := 0
    sound_timer := 0
    keypad := fun _ => false
    video := fun _ _ => 0
    opcode := 0 }

/-- The copy loop of `load_rom` (`for i in 0..rom_vector.len() { self.memory[0x200 + i] = rom_vector[i] }`).
A panicking out-of-bounds write aborts the loop; the `.error` case carries
the machine state at the moment of the panic (the writes made so far have
already happened through `&mut self`). -/
def copyRom : List Nat → Nat → Processor → Except Processor Processor
  | [], _, s => .ok s
  | b :: rest, addr, s =>
    if addr < MEMORY_SIZE then
      copyRom rest (addr + 1) { s with memory := upd s.memory addr b }
    else .error s

/-- Source `Processor::load_rom`, restricted to its state-mutating core: the host
file I/O produces the byte sequence `rom`; the loop copies it into memory
starting at `ROM_START_ADDRESS` with no size check. -/
def load_rom (rom : List Nat) (s : Processor) : Except Processor Processor :=
  copyRom rom ROM_START_ADDRESS s

/-- Source `op_00e0`: clear the display (every in-range cell set to 0). -/
def op_00e0 (s : Processor) : Processor :=
  { s with video := fun y x =>
      if y < SCREEN_HEIGHT ∧ x < SCREEN_WIDTH then 0 else s.video y x }

/-- Source `op_00ee`: return from a subroutine.  `sp -= 1` (u8, checked);
`pc = stack[sp]` (checked index). -/
def op_00ee (s : Processor) : Except String Processor := do
  let sp' ← u8sub s.sp 1
  let s := { s with sp := sp' }
  let i ← checkIdx STACK_SIZE s.sp
  .ok { s with pc := s.stack i }

/-- Source `op_1nnn`: jump to `nnn`. -/
def op_1nnn (nnn : Nat) (s : Processor) : Processor :=
  { s with pc := nnn }

/-- Source `op_2nnn`: call subroutine at `nnn`.  `stack[sp] = pc` (checked index);
`sp += 1` (u8, checked); `pc = nnn`. -/
def op_2nnn (nnn : Nat) (s : Processor) : Except String Processor := do
  let i ← checkIdx STACK_SIZE s.sp
  let s := { s with stack := upd s.stack i s.pc }
  let sp' ← u8add s.sp 1
  .ok { s with sp := sp', pc := nnn }

/-- Source `op_3xkk`: skip next instruction if `Vx = kk` (`pc + 2` is checked u16). -/
def op_3xkk (x kk : Nat) (s : Processor) : Except String Processor :=
  if s.registers x = kk then do
    let pc' ← u16add s.pc 2
    .ok { s with pc := pc' }
  else .ok s

/-- Source `op_4xkk`: skip next instruction if `Vx ≠ kk`. -/
def op_4xkk (x kk : Nat) (s : Processor) : Except String Processor :=
  if s.registers x ≠ kk then do
    let pc' ← u16add s.pc 2
    .ok { s with pc := pc' }
  else .ok s

/-- Source `op_5xy0`: skip next instruction if `Vx = Vy`. -/
def op_5xy0 (x y : Nat) (s : Processor) : Except String Processor :=
  if s.registers x = s.registers y then do
    let pc' ← u16add s.pc 2
    .ok { s with pc := pc' }
  else .ok s

/-- Source `op_6xkk`: `Vx = kk`. -/
def op_6xkk (x kk : Nat) (s : Processor) : Processor :=
  { s with registers := upd s.registers x kk }

/-- Source `op_7xkk`: `Vx = Vx + kk` computed in u16, truncated to u8. -/
def op_7xkk (x kk : Nat) (s : Processor) : Processor :=
  let vx := s.registers x
  let val := kk
  let result := vx + val
  { s with registers := upd s.registers x (result % 256) }

/-- Source `op_8xy0`: `Vx = Vy`. -/
def op_8xy0 (x y : Nat) (s : Processor) : Processor :=
  { s with registers := upd s.registers x (s.registers y) }

/-- Source `op_8xy1`: `Vx = Vx | Vy`. -/
def op_8xy1 (x y : Nat) (s : Processor) : Processor :=
  { s with registers := upd s.registers x (s.registers x ||| s.registers y) }

/-- Source `op_8xy2`: `Vx = Vx & Vy`. -/
def op_8xy2 (x y : Nat) (s : Processor) : Processor :=
  { s with registers := upd s.registers x (s.registers x &&& s.registers y) }

/-- Source `op_8xy3`: `Vx = Vx ^ Vy`. -/
def op_8xy3 (x y : Nat) (s : Processor) : Processor :=
  { s with registers := upd s.registers x (s.registers x ^^^ s.registers y) }

/-- Source `op_8xy4`: `result = Vx + Vy` in u16; `Vx = result as u8` is written
FIRST, then `VF = if result > 0xFF { 1 } else { 0 }`. -/
def op_8xy4 (x y : Nat) (s : Processor) : Processor :=
  let vx := s.registers x
  let vy := s.registers y
  let result := vx + vy
  let s := { s with registers := upd s.registers x (result % 256) }
  { s with registers := upd s.registers CARRY_REGISTER (if result > 0xFF then 1 else 0) }

/-- Source `op_8xy5`: `VF = if Vx > Vy { 1 } else { 0 }` is written FIRST, then
`Vx = Vx.wrapping_sub(Vy)` — the second line reads the registers AFTER the
flag write, exactly as the Rust statement sequence does. -/
def op_8xy5 (x y : Nat) (s : Processor) : Processor :=
  let s := { s with registers := upd s.registers CARRY_REGISTER (if s.registers x > s.registers y then 1 else 0) }
  { s with registers := upd s.registers x (wrapping_sub (s.registers x) (s.registers y)) }

/-- Source `op_8xy6`: `VF = Vx & 1` is written FIRST, then `Vx = Vx >> 1` (the
shift reads the registers after the flag write). -/
def op_8xy6 (x : Nat) (s : Processor) : Processor :=
  let s := { s with registers := upd s.registers CARRY_REGISTER (s.registers x &&& 0x1) }
  { s with registers := upd s.registers x (s.registers x >>> 1) }

/-- Source `op_8xy7`: `VF = if Vy > Vx { 1 } else { 0 }` is written FIRST, then
`Vx = Vy.wrapping_sub(Vx)`. -/
def op_8xy7 (x y : Nat) (s : Processor) : Processor :=
  let s := { s with registers := upd s.registers CARRY_REGISTER (if s.registers y > s.registers x then 1 else 0) }
  { s with registers := upd s.registers x (wrapping_sub (s.registers y) (s.registers x)) }

/-- Source `op_8xye`: `VF = (Vx & 0b10000000) >> 7` is written FIRST, then
`Vx <<= 1` (u8 shift discards the high bit; it does not panic). -/
def op_8xye (x : Nat) (s : Processor) : Processor :=
  let s := { s with registers := upd s.registers CARRY_REGISTER ((s.registers x &&& 0b10000000) >>> 7) }
  { s with registers := upd s.registers x ((s.registers x <<< 1) % 256) }

/-- Source `op_9xy0`: skip next instruction if `Vx ≠ Vy`. -/
def op_9xy0 (x y : Nat) (s : Processor) : Except String Processor :=
  if s.registers x ≠ s.registers y then do
    let pc' ← u16add s.pc 2
    .ok { s with pc := pc' }
  else .ok s

/-- Source `op_annn`: `I = nnn`. -/
def op_annn (nnn : Nat) (s : Processor) : Processor :=
  { s with index := nnn }

/-- Source `op_bnnn`: `pc = V0 as u16 + nnn` (checked u16 addition). -/
def op_bnnn (nnn : Nat) (s : Processor) : Except String Processor := do
  let pc' ← u16add (s.registers 0) nnn
  .ok { s with pc := pc' }

/-- Source `op_cxkk`: `Vx = rnum & kk` where `rnum` is the random byte drawn from
the thread RNG (passed as a parameter to make the model deterministic). -/
def op_cxkk (rnum : Nat) (x kk : Nat) (s : Processor) : Processor :=
  { s with registers := upd s.registers x (rnum &&& kk) }

/-- One iteration of the inner `for bit in 0..8` loop of `op_dxyn`:
`x = (registers[x] + bit) % 64`; `color = (memory[index + byte] >> (7 - bit)) & 1`
(checked memory read); `VF |= color & video[y][x]`; `video[y][x] ^= color`. -/
def drawBit (x yy row bit : Nat) (s : Processor) : Except String Processor := do
  let xx := (s.registers x + bit) % SCREEN_WIDTH
  let a ← checkIdx MEMORY_SIZE (s.index + row)
  let color := (s.memory a >>> (7 - bit)) &&& 1
  let s := { s with registers := upd s.registers CARRY_REGISTER (s.registers CARRY_REGISTER ||| (color &&& s.video yy xx)) }
  .ok { s with video := upd2 s.video yy xx (s.video yy xx ^^^ color) }

/-- The inner `for bit in 0..8` loop of `op_dxyn`, with current bit index
and remaining iteration count. -/
def drawBitsLoop (x yy row : Nat) : Nat → Nat → Processor → Except String Processor
  | _, 0, s => .ok s
  | bit, fuel + 1, s => do
    let s ← drawBit x yy row bit s
    drawBitsLoop x yy row (bit + 1) fuel s

/-- The outer `for byte in 0..n` loop of `op_dxyn`:
`y = (registers[y] + byte) % 32` is computed at the start of each row from
the current register file. -/
def drawRowsLoop (x y : Nat) : Nat → Nat → Processor → Except String Processor
  | _, 0, s => .ok s
  | row, fuel + 1, s => do
    let yy := (s.registers y + row) % SCREEN_HEIGHT
    let s ← drawBitsLoop x yy row 0 8 s
    drawRowsLoop x y (row + 1) fuel s

/-- Source `op_dxyn`: sprite draw.  `VF = 0`, then XOR the `n` sprite rows into
the framebuffer with wrap-around, OR-ing collisions into `VF`. -/
def op_dxyn (x y n : Nat) (s : Processor) : Except String Processor := do
  let s := { s with registers := upd s.registers CARRY_REGISTER 0 }
  drawRowsLoop x y 0 n s

/-- Source `op_ex9e`: `key = registers[x]`; skip if `keypad[key]` (the keypad
index is NOT masked; the access is bounds-checked like the Rust indexing). -/
def op_ex9e (x : Nat) (s : Processor) : Except String Processor := do
  let key := s.registers x
  let k ← checkIdx KEYPAD_SIZE key
  if s.keypad k = true then do
    let pc' ← u16add s.pc 2
    .ok { s with pc := pc' }
  else .ok s

/-- Source `op_exa1`: `key = registers[x]`; skip if not `keypad[key]` (unmasked,
bounds-checked index). -/
def op_exa1 (x : Nat) (s : Processor) : Except String Processor := do
  let key := s.registers x
  let k ← checkIdx KEYPAD_SIZE key
  if s.keypad k = false then do
    let pc' ← u16add s.pc 2
    .ok { s with pc := pc' }
  else .ok s

/-- Source `op_fx07`: `Vx = delay_timer`. -/
def op_fx07 (x : Nat) (s : Processor) : Processor :=
  { s with registers := upd s.registers x s.delay_timer }

/-- The `for i in 0..16` scan of `op_fx0a`, returning the first pressed
key index if any. -/
def keyLoop (kp : Nat → Bool) : Nat → Nat → Option Nat
  | _, 0 => none
  | i, fuel + 1 => if kp i = true then some i else keyLoop kp (i + 1) fuel

/-- Source `op_fx0a`: wait for a key press.  If some key is pressed, `Vx` is set
to the first pressed index; otherwise `pc -= 2` (checked u16). -/
def op_fx0a (x : Nat) (s : Processor) : Except String Processor :=
  match keyLoop s.keypad 0 16 with
  | some i => .ok { s with registers := upd s.registers x i }
  | none => do
    let pc' ← u16sub s.pc 2
    .ok { s with pc := pc' }

/-- Source `op_fx15`: `delay_timer = Vx`. -/
def op_fx15 (x : Nat) (s : Processor) : Processor :=
  { s with delay_timer := s.registers x }

/-- Source `op_fx18`: `sound_timer = Vx`. -/
def op_fx18 (x : Nat) (s : Processor) : Processor :=
  { s with sound_timer := s.registers x }

/-- Source `op_fx1e`: `I = I + Vx` (checked u16 addition). -/
def op_fx1e (x : Nat) (s : Processor) : Except String Processor := do
  let i' ← u16add s.index (s.registers x)
  .ok { s with index := i' }

/-- Source `op_fx29`: `I = (FONTSET_START_ADDRESS + FONT_CHARACTER_BYTES * digit) as u16`
where `digit = registers[x]`.  The whole computation happens in u8 (both
constants are u8), so it is checked; the digit is NOT masked to 4 bits. -/
def op_fx29 (x : Nat) (s : Processor) : Except String Processor := do
  let digit := s.registers x
  let prod ← u8mul FONT_CHARACTER_BYTES digit
  let sum ← u8add FONTSET_START_ADDRESS prod
  .ok { s with index := sum }

/-- Source `op_fx33`: BCD of `Vx` into `memory[I]`, `memory[I+1]`, `memory[I+2]`
(checked memory writes). -/
def op_fx33 (x : Nat) (s : Processor) : Except String Processor := do
  let vx := s.registers x
  let a0 ← checkIdx MEMORY_SIZE s.index
  let s := { s with memory := upd s.memory a0 (vx / 100) }
  let a1 ← checkIdx MEMORY_SIZE (s.index + 1)
  let s := { s with memory := upd s.memory a1 (vx % 100 / 10) }
  let a2 ← checkIdx MEMORY_SIZE (s.index + 2)
  .ok { s with memory := upd s.memory a2 (vx % 10) }

/-- The `for i in 0..x + 1` loop of `op_fx55` (checked memory writes). -/
def fx55Loop : Nat → Nat → Processor → Except String Processor
  | _, 0, s => .ok s
  | i, fuel + 1, s => do
    let a ← checkIdx MEMORY_SIZE (s.index + i)
    let s := { s with memory := upd s.memory a (s.registers i) }
    fx55Loop (i + 1) fuel s

/-- Source `op_fx55`: store `V0 ..= Vx` at `memory[I ..= I + x]`. -/
def op_fx55 (x : Nat) (s : Processor) : Except String Processor :=
  fx55Loop 0 (x + 1) s

/-- The `for i in 0..x + 1` loop of `op_fx65` (checked memory reads). -/
def fx65Loop : Nat → Nat → Processor → Except String Processor
  | _, 0, s => .ok s
  | i, fuel + 1, s => do
    let a ← checkIdx MEMORY_SIZE (s.index + i)
    let s := { s with registers := upd s.registers i (s.memory a) }
    fx65Loop (i + 1) fuel s

/-- Source `op_fx65`: load `V0 ..= Vx` from `memory[I ..= I + x]`. -/
def op_fx65 (x : Nat) (s : Processor) : Except String Processor :=
  fx65Loop 0 (x + 1) s

/-- Tags for the instruction handlers reachable from the dispatch `match`
of `run_opcode`, plus `unknown` for the `_ => panic!` arm. -/
inductive Op where
  | o00e0 | o00ee | o1nnn | o2nnn | o3xkk | o4xkk | o5xy0 | o6xkk | o7xkk
  | o8xy0 | o8xy1 | o8xy2 | o8xy3 | o8xy4 | o8xy5 | o8xy6 | o8xy7 | o8xye
  | o9xy0 | oannn | obnnn | ocxkk | odxyn | oex9e | oexa1
  | ofx07 | ofx0a | ofx15 | ofx18 | ofx1e | ofx29 | ofx33 | ofx55 | ofx65
  | unknown
deriving DecidableEq

/-- The dispatch `match params` of `run_opcode`, on the four decoded
nibbles, with the rows in source order.  `unknown` is the
`_ => panic!("Unknown instruction")` arm. -/
def decode_nibbles : Nat → Nat → Nat → Nat → Op
  | 0x00, 0x00, 0x0e, 0x00 => .o00e0
  | 0x00, 0x00, 0x0e, 0x0e => .o00ee
  | 0x01, _, _, _ => .o1nnn
  | 0x02, _, _, _ => .o2nnn
  | 0x03, _, _, _ => .o3xkk
  | 0x04, _, _, _ => .o4xkk
  | 0x05, _, _, 0x00 => .o5xy0
  | 0x06, _, _, _ => .o6xkk
  | 0x07, _, _, _ => .o7xkk
  | 0x08, _, _, 0x00 => .o8xy0
  | 0x08, _, _, 0x01 => .o8xy1
  | 0x08, _, _, 0x02 => .o8xy2
  | 0x08, _, _, 0x03 => .o8xy3
  | 0x08, _, _, 0x04 => .o8xy4
  | 0x08, _, _, 0x05 => .o8xy5
  | 0x08, _, _, 0x06 => .o8xy6
  | 0x08, _, _, 0x07 => .o8xy7
  | 0x08, _, _, 0x0e => .o8xye
  | 0x09, _, _, 0x00 => .o9xy0
  | 0x0a, _, _, _ => .oannn
  | 0x0b, _, _, _ => .obnnn
  | 0x0c, _, _, _ => .ocxkk
  | 0x0d, _, _, _ => .odxyn
  | 0x0e, _, 0x09, 0x0e => .oex9e
  | 0x0e, _, 0x0a, 0x01 => .oexa1
  | 0x0f, _, 0x00, 0x07 => .ofx07
  | 0x0f, _, 0x00, 0x0a => .ofx0a
  | 0x0f, _, 0x01, 0x05 => .ofx15
  | 0x0f, _, 0x01, 0x08 => .ofx18
  | 0x0f, _, 0x01, 0x0e => .ofx1e
  | 0x0f, _, 0x02, 0x09 => .ofx29
  | 0x0f, _, 0x03, 0x03 => .ofx33
  | 0x0f, _, 0x05, 0x05 => .ofx55
  | 0x0f, _, 0x06, 0x05 => .ofx65
  | _, _, _, _ => .unknown

/-- The nibble decomposition `params` of `run_opcode` applied to the
dispatch match. -/
def decode_opcode (opcode : Nat) : Op :=
  decode_nibbles ((opcode &&& 0xF000) >>> 12) ((opcode &&& 0x0F00) >>> 8)
    ((opcode &&& 0x00F0) >>> 4) (opcode &&& 0x000F)

/-- Source `run_opcode`: decode the current `opcode` and run the matching
handler; the unmatched arm is the fatal `panic!("Unknown instruction")`.
`rnum` is the random byte consumed by `op_cxkk`. -/
def run_opcode (rnum : Nat) (s : Processor) : Except String Processor :=
  let nnn := s.opcode &&& 0x0FFF
  let kk := s.opcode &&& 0x00FF
  let x := (s.opcode &&& 0x0F00) >>> 8
  let y := (s.opcode &&& 0x00F0) >>> 4
  let n := s.opcode &&& 0x000F
  match decode_opcode s.opcode with
  | .o00e0 => .ok (op_00e0 s)
  | .o00ee => op_00ee s
  | .o1nnn => .ok (op_1nnn nnn s)
  | .o2nnn => op_2nnn nnn s
  | .o3xkk => op_3xkk x kk s
  | .o4xkk => op_4xkk x kk s
  | .o5xy0 => op_5xy0 x y s
  | .o6xkk => .ok (op_6xkk x kk s)
  | .o7xkk => .ok (op_7xkk x kk s)
  | .o8xy0 => .ok (op_8xy0 x y s)
  | .o8xy1 => .ok (op_8xy1 x y s)
  | .o8xy2 => .ok (op_8xy2 x y s)
  | .o8xy3 => .ok (op_8xy3 x y s)
  | .o8xy4 => .ok (op_8xy4 x y s)
  | .o8xy5 => .ok (op_8xy5 x y s)
  | .o8xy6 => .ok (op_8xy6 x s)
  | .o8xy7 => .ok (op_8xy7 x y s)
  | .o8xye => .ok (op_8xye x s)
  | .o9xy0 => op_9xy0 x y s
  | .oannn => .ok (op_annn nnn s)
  | .obnnn => op_bnnn nnn s
  | .ocxkk => .ok (op_cxkk rnum x kk s)
  | .odxyn => op_dxyn x y n s
  | .oex9e => op_ex9e x s
  | .oexa1 => op_exa1 x s
  | .ofx07 => .ok (op_fx07 x s)
  | .ofx0a => op_fx0a x s
  | .ofx15 => .ok (op_fx15 x s)
  | .ofx18 => .ok (op_fx18 x s)
  | .ofx1e => op_fx1e x s
  | .ofx29 => op_fx29 x s
  | .ofx33 => op_fx33 x s
  | .ofx55 => op_fx55 x s
  | .ofx65 => op_fx65 x s
  | .unknown => .error "Unknown instruction"

/-- Source `get_opcode`: big-endian fetch of the two bytes at `pc` (checked
indices; `pc + 1` is a checked u16 addition). -/
def get_opcode (s : Processor) : Except String Nat := do
  let a0 ← checkIdx MEMORY_SIZE s.pc
  let hi := s.memory a0
  let p1 ← u16add s.pc 1
  let a1 ← checkIdx MEMORY_SIZE p1
  .ok ((hi <<< 8) ||| s.memory a1)

/-- Source `tick(keypad)`: latch the keypad; decrement each positive timer;
fetch; `pc += 2` (checked u16); dispatch. -/
def tick (keypad : Nat → Bool) (rnum : Nat) (s : Processor) : Except String Processor := do
  let s := { s with keypad := keypad }
  let s := { s with delay_timer := if s.delay_timer > 0 then s.delay_timer - 1 else s.delay_timer }
  let s := { s with sound_timer := if s.sound_timer > 0 then s.sound_timer - 1 else s.sound_timer }
  let opc ← get_opcode s
  let s := { s with opcode := opc }
  let pc' ← u16add s.pc 2
  let s := { s with pc := pc' }
  run_opcode rnum s

end Chip8

namespace Chip8

/-- Follows the spec words: the dispatch table of section 4.3, row by row in
table order, on the four nibbles `nib3 nib2 nib1 nib0` of the opcode;
any pattern not listed is an unknown instruction. -/
def spec_dispatch_nibbles : Nat → Nat → Nat → Nat → Op
  | 0x0, 0x0, 0xe, 0x0 => .o00e0
  | 0x0, 0x0, 0xe, 0xe => .o00ee
  | 0x1, _, _, _ => .o1nnn
  | 0x2, _, _, _ => .o2nnn
  | 0x3, _, _, _ => .o3xkk
  | 0x4, _, _, _ => .o4xkk
  | 0x5, _, _, 0x0 => .o5xy0
  | 0x6, _, _, _ => .o6xkk
  | 0x7, _, _, _ => .o7xkk
  | 0x8, _, _, 0x0 => .o8xy0
  | 0x8, _, _, 0x1 => .o8xy1
  | 0x8, _, _, 0x2 => .o8xy2
  | 0x8, _, _, 0x3 => .o8xy3
  | 0x8, _, _, 0x4 => .o8xy4
  | 0x8, _, _, 0x5 => .o8xy5
  | 0x8, _, _, 0x6 => .o8xy6
  | 0x8, _, _, 0x7 => .o8xy7
  | 0x8, _, _, 0xe => .o8xye
  | 0x9, _, _, 0x0 => .o9xy0
  | 0xa, _, _, _ => .oannn
  | 0xb, _, _, _ => .obnnn
  | 0xc, _, _, _ => .ocxkk
  | 0xd, _, _, _ => .odxyn
  | 0xe, _, 0x9, 0xe => .oex9e
  | 0xe, _, 0xa, 0x1 => .oexa1
  | 0xf, _, 0x0, 0x7 => .ofx07
  | 0xf, _, 0x0, 0xa => .ofx0a
  | 0xf, _, 0x1, 0x5 => .ofx15
  | 0xf, _, 0x1, 0x8 => .ofx18
  | 0xf, _, 0x1, 0xe => .ofx1e
  | 0xf, _, 0x2, 0x9 => .ofx29
  | 0xf, _, 0x3, 0x3 => .ofx33
  | 0xf, _, 0x5, 0x5 => .ofx55
  | 0xf, _, 0x6, 0x5 => .ofx65
  | _, _, _, _ => .unknown

/-- The spec dispatch on a whole opcode, nibbles most to least significant. -/
def spec_dispatch (opcode : Nat) : Op :=
  spec_dispatch_nibbles (opcode / 4096 % 16) (opcode / 256 % 16) (opcode / 16 % 16) (opcode % 16)

@[simp] theorem ok_bind {α β : Type} (a : α) (f : α → Except String β) :
    (Except.ok a >>= f : Except String β) = f a := rfl

@[simp] theorem error_bind {α β : Type} (e : String) (f : α → Except String β) :
    (Except.error e >>= f : Except String β) = Except.error e := rfl

@[simp] theorem checkIdx_lt (size i : Nat) (h : i < size) : checkIdx size i = .ok i := by
  simp [checkIdx, h]

@[simp] theorem checkIdx_ge (size i : Nat) (h : size ≤ i) : checkIdx size i = .error "index out of bounds" := by
  simp [checkIdx]; omega

@[simp] theorem u16add_ok (a b : Nat) (h : a + b ≤ 65535) : u16add a b = .ok (a + b) := by
  simp [u16add, h]

@[simp] theorem u16sub_ok (a b : Nat) (h : b ≤ a) : u16sub a b = .ok (a - b) := by
  simp [u16sub, h]

@[simp] theorem u8add_ok (a b : Nat) (h : a + b ≤ 255) : u8add a b = .ok (a + b) := by
  simp [u8add, h]

@[simp] theorem u8sub_ok (a b : Nat) (h : b ≤ a) : u8sub a b = .ok (a - b) := by
  simp [u8sub, h]

@[simp] theorem u8mul_ok (a b : Nat) (h : a * b ≤ 255) : u8mul a b = .ok (a * b) := by
  simp [u8mul, h]

/-- An all-zero machine state used to build concrete test states. -/
def zeroProc : Processor :=
  { registers := fun _ => 0, memory := fun _ => 0, index := 0, pc := 0,
    stack := fun _ => 0, sp := 0, delay_timer := 0, sound_timer := 0,
    keypad := fun _ => false, video := fun _ _ => 0, opcode := 0 }

/-- State with `VF = 5`, `V0 = 3`: a SUB with destination `VF`. -/
def c1S : Processor :=
  { zeroProc with registers := fun i => if i = 15 then 5 else if i = 0 then 3 else 0 }

/-- State with `VF = 0x80`: an SHL with destination `VF`. -/
def c1SE : Processor :=
  { zeroProc with registers := fun i => if i = 15 then 128 else 0 }

/-- State with `V0 = 16` (not a valid key) and every key pressed. -/
def c2S : Processor :=
  { zeroProc with
    registers := fun i => if i = 0 then 16 else 0
    keypad := fun _ => true }

/-- State with `V1 = 2` and only key 2 pressed. -/
def c2WS : Processor :=
  { zeroProc with
    registers := fun i => if i = 1 then 2 else 0
    keypad := fun i => decide (i = 2) }

/-- State with `V0 = 0x1A`. -/
def c3S : Processor :=
  { zeroProc with registers := fun i => if i = 0 then 0x1A else 0 }

/-- State with `V0 = 0x0A` (the spec example for `Fx29`). -/
def c3WS : Processor :=
  { zeroProc with registers := fun i => if i = 0 then 0x0A else 0 }

/-- State with `I = 0x300` and `V0 V1 V2 = 7 8 9`. -/
def c8WS : Processor :=
  { zeroProc with
    index := 0x300
    registers := fun i => if i < 3 then 7 + i else 0 }

/-- State with `CALL 0x300` at `0x200` and `RET` at `0x300`. -/
def c6WS : Processor :=
  { zeroProc with
    pc := 0x200
    memory := fun a => if a = 0x200 then 0x23 else if a = 0x301 then 0xEE else 0 }

/-- State with `F30A` (wait for key into `V3`) at `pc = 0x200`. -/
def c7WS : Processor :=
  { zeroProc with
    pc := 0x200
    memory := fun a => if a = 0x200 then 0xF3 else if a = 0x201 then 0x0A else 0 }

/-- State whose fetched opcode is the unlisted pattern `5xy1`. -/
def c9WS : Processor := { zeroProc with opcode := 0x5011 }

/-- The 1-bit-per-pixel invariant: every framebuffer cell is `0` or `1`. -/
def VideoBits (s : Processor) : Prop := ∀ Y X, s.video Y X ≤ 1

/-- State with `00E0` (CLS) at `pc = 0x200`. -/
def c10WS : Processor :=
  { zeroProc with
    pc := 0x200
    memory := fun a => if a = 0x200 then 0x00 else if a = 0x201 then 0xE0 else 0 }

/-- The state after the CLS tick on `c10WS`. -/
def c10T : Processor :=
  { c10WS with
    keypad := fun _ => false
    opcode := 0x00E0
    pc := 0x202
    video := fun y x => if y < SCREEN_HEIGHT ∧ x < SCREEN_WIDTH then 0 else c10WS.video y x }

/-- The sprite bit drawn by row `r`, column `b`: MSB-leftmost bit `b` of
the sprite byte at `I + r`. -/
def drawColor (mem : Nat → Nat) (I r b : Nat) : Nat := (mem (I + r) >>> (7 - b)) &&& 1

/-- First `b` in `[bit, bit + fuel)` whose wrapped column hits `X`. -/
def bitFind (regx : Nat) : Nat → Nat → Nat → Option Nat
  | _, 0, _ => none
  | bit, fuel + 1, X =>
    if (regx + bit) % SCREEN_WIDTH = X then some bit else bitFind regx (bit + 1) fuel X

/-- First `r` in `[row, row + fuel)` whose wrapped row hits `Y`. -/
def rowFind (regy : Nat) : Nat → Nat → Nat → Option Nat
  | _, 0, _ => none
  | row, fuel + 1, Y =>
    if (regy + row) % SCREEN_HEIGHT = Y then some row else rowFind regy (row + 1) fuel Y

/-- Framebuffer overlay of the bit span `[bit, bit + fuel)` of one sprite
row (`byteVal`) at screen row `yy`. -/
def rowVid (regx byteVal yy bit fuel : Nat) (vid : Nat → Nat → Nat) : Nat → Nat → Nat :=
  fun Y X =>
    if Y = yy then
      match bitFind regx bit fuel X with
      | some b => vid Y X ^^^ ((byteVal >>> (7 - b)) &&& 1)
      | none => vid Y X
    else vid Y X

/-- Framebuffer overlay of the sprite rows `[row, row + fuel)`. -/
def rowsVid (regx regy : Nat) (mem : Nat → Nat) (I row fuel : Nat)
    (vid : Nat → Nat → Nat) : Nat → Nat → Nat :=
  fun Y X =>
    match rowFind regy row fuel Y, bitFind regx 0 8 X with
    | some r, some b => vid Y X ^^^ drawColor mem I r b
    | _, _ => vid Y X

/-- Collision bits accumulated by the bit span `[bit, bit + fuel)` of one
sprite row against the framebuffer `vid`. -/
def bitsCollideF (regx : Nat) (vid : Nat → Nat → Nat) (byteVal yy : Nat) : Nat → Nat → Nat
  | _, 0 => 0
  | bit, fuel + 1 =>
    (((byteVal >>> (7 - bit)) &&& 1) &&& vid yy ((regx + bit) % SCREEN_WIDTH)) |||
      bitsCollideF regx vid byteVal yy (bit + 1) fuel

/-- Collision bits accumulated by the sprite rows `[row, row + fuel)`. -/
def rowsCollideF (regx regy : Nat) (vid : Nat → Nat → Nat) (mem : Nat → Nat)
    (I : Nat) : Nat → Nat → Nat
  | _, 0 => 0
  | row, fuel + 1 =>
    bitsCollideF regx vid (mem (I + row)) ((regy + row) % SCREEN_HEIGHT) 0 8 |||
      rowsCollideF regx regy vid mem I (row + 1) fuel

/-- The "off-pixel hit" bits of the SECOND of two identical draws: a term
is `1` exactly when the sprite bit is `1` and the pre-first-draw pixel has
low bit `0`. -/
def bitsOff (regx : Nat) (vid : Nat → Nat → Nat) (byteVal yy : Nat) : Nat → Nat → Nat
  | _, 0 => 0
  | bit, fuel + 1 =>
    (((byteVal >>> (7 - bit)) &&& 1) &&&
      (vid yy ((regx + bit) % SCREEN_WIDTH) ^^^ ((byteVal >>> (7 - bit)) &&& 1))) |||
      bitsOff regx vid byteVal yy (bit + 1) fuel

/-- Row-level accumulation of `bitsOff`. -/
def rowsOff (regx regy : Nat) (vid : Nat → Nat → Nat) (mem : Nat → Nat)
    (I : Nat) : Nat → Nat → Nat
  | _, 0 => 0
  | row, fuel + 1 =>
    bitsOff regx vid (mem (I + row)) ((regy + row) % SCREEN_HEIGHT) 0 8 |||
      rowsOff regx regy vid mem I (row + 1) fuel

/-- The final `VF` of a draw sequence (for concrete evaluation). -/
def resVF (e : Except String Processor) : Nat :=
  match e with
  | .ok t => t.registers CARRY_REGISTER
  | .error _ => 2

/-- A framebuffer cell of a draw-sequence result (for concrete
evaluation). -/
def resVid (e : Except String Processor) (Y X : Nat) : Nat :=
  match e with
  | .ok t => t.video Y X
  | .error _ => 2

/-- One-byte sprite `0x80` at `I = 0x300`, pixel `(0,0)` already lit. -/
def c5A : Processor :=
  { zeroProc with
    index := 0x300
    memory := fun a => if a = 0x300 then 0x80 else 0
    video := fun yv xv => if yv = 0 ∧ xv = 0 then 1 else 0 }

/-- Two-byte sprite `0x80 0x80` at `I = 0x300`, blank screen, drawn with
`y = 0xF` (the row base register is `VF` itself). -/
def c5B : Processor :=
  { zeroProc with
    index := 0x300
    memory := fun a => if a = 0x300 then 0x80 else if a = 0x301 then 0x80 else 0 }

/-- One-byte sprite `0x80` at `I = 0x300`, blank screen. -/
def c5WS : Processor :=
  { zeroProc with
    index := 0x300
    memory := fun a => if a = 0x300 then 0x80 else 0 }

theorem nibbles_eq_spec (a b c d : Nat) :
    decode_nibbles a b c d = spec_dispatch_nibbles a b c d := rfl

/-- Bit mask by `2^k - 1` is reduction mod `2^k` (numeral instances below). -/
theorem land_mod_pow2 (w k : Nat) : w &&& (2 ^ k - 1) = w % 2 ^ k :=
  Nat.and_pow_two_sub_one_eq_mod w k

theorem land_0xF (w : Nat) : w &&& 0x000F = w % 16 := by
  have h := land_mod_pow2 w 4; norm_num at h; exact h

theorem land_0xFF (w : Nat) : w &&& 0x00FF = w % 256 := by
  have h := land_mod_pow2 w 8; norm_num at h; exact h

theorem land_0xFFF (w : Nat) : w &&& 0x0FFF = w % 4096 := by
  have h := land_mod_pow2 w 12; norm_num at h; exact h

theorem land_one (w : Nat) : w &&& 1 = w % 2 := Nat.and_one_is_mod w

/-- Masking by a shifted mask then shifting right is shifting then masking. -/
theorem land_shl_shr (w m k : Nat) : (w &&& (m <<< k)) >>> k = (w >>> k) &&& m := by
  apply Nat.eq_of_testBit_eq
  intro i
  simp [Nat.testBit_shiftRight, Nat.testBit_and, Nat.testBit_shiftLeft]

theorem nib2_eq (w : Nat) : (w &&& 0x0F00) >>> 8 = w / 256 % 16 := by
  rw [show (0x0F00 : Nat) = 15 <<< 8 by decide, land_shl_shr,
    Nat.shiftRight_eq_div_pow, land_0xF]

theorem nib1_eq (w : Nat) : (w &&& 0x00F0) >>> 4 = w / 16 % 16 := by
  rw [show (0x00F0 : Nat) = 15 <<< 4 by decide, land_shl_shr,
    Nat.shiftRight_eq_div_pow, land_0xF]

theorem nib3_eq (w : Nat) : (w &&& 0xF000) >>> 12 = w / 4096 % 16 := by
  rw [show (0xF000 : Nat) = 15 <<< 12 by decide, land_shl_shr,
    Nat.shiftRight_eq_div_pow, land_0xF]

/-- Big-endian byte assembly: `hi <<< 8 ||| lo` is `hi * 256 + lo`. -/
theorem shl8_lor (hi lo : Nat) (h : lo < 256) : (hi <<< 8) ||| lo = hi * 256 + lo := by
  have h2 : lo < 2 ^ 8 := by omega
  apply Nat.eq_of_testBit_eq
  intro i
  have hrhs := Nat.testBit_mul_pow_two_add hi h2 i
  rw [show hi * 256 + lo = 2 ^ 8 * hi + lo by ring, hrhs]
  by_cases hi8 : i < 8
  · simp [Nat.testBit_or, Nat.testBit_shiftLeft, hi8, show ¬ 8 ≤ i by omega]
  · have hlt : lo < 2 ^ i :=
      lt_of_lt_of_le h2 (Nat.pow_le_pow_right (by omega) (by omega))
    simp [Nat.testBit_or, Nat.testBit_shiftLeft, hi8, show 8 ≤ i by omega,
      Nat.testBit_lt_two_pow hlt]

theorem decode_opcode_eq (w : Nat) :
    decode_opcode w = decode_nibbles (w / 4096 % 16) (w / 256 % 16) (w / 16 % 16) (w % 16) := by
  unfold decode_opcode
  rw [nib3_eq, nib2_eq, nib1_eq, land_0xF]

/-- Claim C1, evaluation at the failing inputs: for `8xy5`, `8xy6`, `8xy7`,
`8xyE` with `x = 0xF` the final value of `V[0xF]` is the arithmetic result
computed from the freshly written flag, not the flag itself (the last
three conjuncts give the flag each opcode should have left). -/
theorem c1_vf_overwritten :
    (op_8xy5 15 0 c1S).registers CARRY_REGISTER = 254 ∧
    (op_8xy6 15 c1S).registers CARRY_REGISTER = 0 ∧
    (op_8xy7 15 0 c1S).registers CARRY_REGISTER = 3 ∧
    (op_8xye 15 c1SE).registers CARRY_REGISTER = 2 ∧
    (if c1S.registers 15 > c1S.registers 0 then 1 else 0) = 1 ∧
    c1S.registers 15 &&& 0x1 = 1 ∧
    (c1SE.registers 15 &&& 0b10000000) >>> 7 = 1 := by
  decide

/-- Claim C2, counterexample: with `Vx = 16` both `Ex9E` and `ExA1` hit the
unmasked out-of-bounds keypad access and fail, although the key the claim
designates (`keypad[Vx & 0xF]`) is pressed and `Ex9E` should skip. -/
theorem c2_unmasked_oob :
    op_ex9e 0 c2S = .error "index out of bounds" ∧
    op_exa1 0 c2S = .error "index out of bounds" ∧
    c2S.keypad (c2S.registers 0 &&& 0xF) = true :=
  ⟨rfl, rfl, by decide⟩

/-- Claim C2 as amended: for `Vx < 16` the skips work, keyed on the
UNMASKED register value. -/
theorem c2_skip_in_range (s : Processor) (x : Nat)
    (h1 : s.registers x < 16) (h2 : s.pc + 2 ≤ 65535) :
    op_ex9e x s = .ok (if s.keypad (s.registers x) = true then { s with pc := s.pc + 2 } else s) ∧
    op_exa1 x s = .ok (if s.keypad (s.registers x) = true then s else { s with pc := s.pc + 2 }) := by
  cases hk : s.keypad (s.registers x) <;>
    simp [op_ex9e, op_exa1, KEYPAD_SIZE, h1, h2, hk]

/-- Witness for `c2_skip_in_range` at `x = 1`, key 2 pressed. -/
theorem c2_skip_in_range_witness :
    c2WS.registers 1 < 16 ∧ c2WS.pc + 2 ≤ 65535 ∧
    op_ex9e 1 c2WS = .ok (if c2WS.keypad (c2WS.registers 1) = true then { c2WS with pc := c2WS.pc + 2 } else c2WS) ∧
    op_exa1 1 c2WS = .ok (if c2WS.keypad (c2WS.registers 1) = true then c2WS else { c2WS with pc := c2WS.pc + 2 }) :=
  ⟨by decide, by decide, (c2_skip_in_range c2WS 1 (by decide) (by decide)).1,
    (c2_skip_in_range c2WS 1 (by decide) (by decide)).2⟩

/-- Claim C3, counterexample: `Fx29` with `Vx = 0x1A` sets
`I = 0x50 + 5 * 0x1A = 0xD2`, not the masked `0x50 + 5 * (0x1A & 0xF) = 0x82`. -/
theorem c3_unmasked_digit :
    op_fx29 0 c3S = .ok { c3S with index := 0xD2 } ∧
    (0xD2 : Nat) ≠ FONTSET_START_ADDRESS + FONT_CHARACTER_BYTES * (c3S.registers 0 &&& 0xF) :=
  ⟨rfl, by decide⟩

/-- Claim C3 as amended: for `Vx ≤ 35` (no u8 overflow) `Fx29` sets
`I = 0x50 + 5 * Vx` with the digit NOT masked. -/
theorem c3_font_unmasked (s : Processor) (x : Nat) (h : s.registers x ≤ 35) :
    op_fx29 x s = .ok { s with index := FONTSET_START_ADDRESS + FONT_CHARACTER_BYTES * s.registers x } := by
  have h1 : FONT_CHARACTER_BYTES * s.registers x ≤ 255 := by
    simp only [FONT_CHARACTER_BYTES]; omega
  have h2 : FONTSET_START_ADDRESS + FONT_CHARACTER_BYTES * s.registers x ≤ 255 := by
    simp only [FONT_CHARACTER_BYTES, FONTSET_START_ADDRESS]; omega
  simp [op_fx29, u8mul_ok _ _ h1, u8add_ok _ _ h2]

/-- Witness for `c3_font_unmasked`: `V0 = 0x0A` gives `I = 0x082`,
matching the spec scenario. -/
theorem c3_font_unmasked_witness :
    c3WS.registers 0 ≤ 35 ∧ op_fx29 0 c3WS = .ok { c3WS with index := 0x82 } :=
  ⟨by decide, by have h := c3_font_unmasked c3WS 0 (by decide); exact h⟩

/-- Overflowing `copyRom` run: when the bytes do not fit below
`MEMORY_SIZE`, the loop writes every address from `addr` up to the end of
memory and then panics, carrying the mutated state. -/
theorem copyRom_overflow : ∀ (rom : List Nat) (addr : Nat) (s : Processor),
    MEMORY_SIZE < addr + rom.length → addr ≤ MEMORY_SIZE →
    copyRom rom addr s = .error { s with memory := fun a =>
      if addr ≤ a ∧ a < MEMORY_SIZE then rom.getD (a - addr) 0 else s.memory a }
  | [], addr, s, hlen, haddr => by
    simp only [List.length_nil] at hlen
    omega
  | b :: rest, addr, s, hlen, haddr => by
    by_cases hin : addr < MEMORY_SIZE
    · rw [copyRom, if_pos hin,
        copyRom_overflow rest (addr + 1) _ (by simp at hlen ⊢; omega) (by omega)]
      congr 1
      refine Processor.ext rfl ?_ rfl rfl rfl rfl rfl rfl rfl rfl rfl
      funext a
      show (if addr + 1 ≤ a ∧ a < MEMORY_SIZE then rest.getD (a - (addr + 1)) 0
        else upd s.memory addr b a) = _
      simp only [upd]
      by_cases h1 : addr + 1 ≤ a ∧ a < MEMORY_SIZE
      · rw [if_pos h1, if_pos (by omega)]
        have : a - addr = (a - (addr + 1)) + 1 := by omega
        simp [this]
      · rw [if_neg h1]
        by_cases h2 : a = addr
        · subst h2
          rw [if_pos rfl, if_pos ⟨le_refl _, hin⟩]
          simp
        · rw [if_neg h2, if_neg (by omega)]
    · rw [copyRom, if_neg hin]
      congr 1
      refine Processor.ext rfl ?_ rfl rfl rfl rfl rfl rfl rfl rfl rfl
      funext a
      show s.memory a =
        if addr ≤ a ∧ a < MEMORY_SIZE then (b :: rest).getD (a - addr) 0 else s.memory a
      rw [if_neg (by omega)]

/-- Claim C4 as amended: an oversized ROM makes `load_rom` fail fatally,
but only after copying the first `3584` bytes into
`memory[0x200 .. 0x1000)`; the panic state differs from the pre-call
state on that whole range. -/
theorem load_rom_too_large (rom : List Nat) (s : Processor)
    (h : MEMORY_SIZE - ROM_START_ADDRESS < rom.length) :
    load_rom rom s = .error { s with memory := fun a =>
      (if ROM_START_ADDRESS ≤ a ∧ a < MEMORY_SIZE then rom.getD (a - ROM_START_ADDRESS) 0
        else s.memory a) } := by
  apply copyRom_overflow
  · simp [MEMORY_SIZE, ROM_START_ADDRESS] at h ⊢; omega
  · simp [MEMORY_SIZE, ROM_START_ADDRESS]

/-- Claim C4, counterexample: loading a 3585-byte ROM of `1`s into the
fresh machine fails fatally (as the claim says) but the panic state has
`memory[0x200] = 1` where the pre-call state had `0`: state IS mutated. -/
theorem load_rom_mutates :
    load_rom (List.replicate 3585 1) Processor.new =
      .error { Processor.new with memory := fun a =>
        (if ROM_START_ADDRESS ≤ a ∧ a < MEMORY_SIZE then (List.replicate 3585 1).getD (a - ROM_START_ADDRESS) 0
          else Processor.new.memory a) } ∧
    (if ROM_START_ADDRESS ≤ 0x200 ∧ 0x200 < MEMORY_SIZE then (List.replicate 3585 1).getD (0x200 - ROM_START_ADDRESS) 0
      else Processor.new.memory 0x200) = 1 ∧
    Processor.new.memory 0x200 = 0 := by
  refine ⟨copyRom_overflow (List.replicate 3585 1) ROM_START_ADDRESS Processor.new
    (by rw [List.length_replicate]; decide) (by decide), ?_, by decide⟩
  rw [if_pos (by decide)]
  rw [show (0x200 - ROM_START_ADDRESS : Nat) = 0 by decide]
  rw [List.getD, show (3585 : Nat) = 3584 + 1 from rfl, List.replicate_succ]
  rfl

/-- Witness for `load_rom_too_large` on a concrete 3585-byte ROM. -/
theorem load_rom_too_large_witness :
    MEMORY_SIZE - ROM_START_ADDRESS < (List.replicate 3585 2).length ∧
    load_rom (List.replicate 3585 2) zeroProc = .error { zeroProc with memory := fun a =>
      (if ROM_START_ADDRESS ≤ a ∧ a < MEMORY_SIZE then (List.replicate 3585 2).getD (a - ROM_START_ADDRESS) 0
        else zeroProc.memory a) } :=
  ⟨by rw [List.length_replicate]; decide,
    load_rom_too_large (List.replicate 3585 2) zeroProc (by rw [List.length_replicate]; decide)⟩

/-- In-bounds `fx55Loop` run: writes `registers[i ..= i + fuel)` to
`memory[index + i ..]` and changes nothing else. -/
theorem fx55Loop_spec : ∀ (fuel i : Nat) (s : Processor),
    s.index + i + fuel ≤ MEMORY_SIZE →
    fx55Loop i fuel s = .ok { s with memory := fun a =>
      if s.index + i ≤ a ∧ a < s.index + i + fuel then s.registers (a - s.index) else s.memory a }
  | 0, i, s, h => by
    rw [fx55Loop]
    congr 1
    refine Processor.ext rfl ?_ rfl rfl rfl rfl rfl rfl rfl rfl rfl
    funext a
    show s.memory a =
      if s.index + i ≤ a ∧ a < s.index + i + 0 then s.registers (a - s.index) else s.memory a
    rw [if_neg (by omega)]
  | fuel + 1, i, s, h => by
    have hidx : s.index + i < MEMORY_SIZE := by omega
    rw [fx55Loop]
    simp only [checkIdx_lt _ _ hidx, ok_bind]
    rw [fx55Loop_spec fuel (i + 1) _ (by simpa using by omega)]
    congr 1
    refine Processor.ext rfl ?_ rfl rfl rfl rfl rfl rfl rfl rfl rfl
    funext a
    show (if s.index + (i + 1) ≤ a ∧ a < s.index + (i + 1) + fuel then s.registers (a - s.index)
      else upd s.memory (s.index + i) (s.registers i) a) = _
    simp only [upd]
    by_cases h1 : s.index + (i + 1) ≤ a ∧ a < s.index + (i + 1) + fuel
    · rw [if_pos h1, if_pos (by omega)]
    · rw [if_neg h1]
      by_cases h2 : a = s.index + i
      · subst h2
        rw [if_pos rfl, if_pos (by omega)]
        congr 1
        omega
      · rw [if_neg h2, if_neg (by omega)]

/-- Claim C8: `Fx55` with `I + x < MEMORY_SIZE` stores the (unchanged)
registers `V0 ..= Vx` at `memory[I ..= I + x]` and leaves every other
field and every memory byte outside `[I, I + x]` unchanged. -/
theorem fx55_stores (s : Processor) (x : Nat) (h : s.index + x < MEMORY_SIZE) :
    op_fx55 x s = .ok { s with memory := fun a =>
      if s.index ≤ a ∧ a ≤ s.index + x then s.registers (a - s.index) else s.memory a } := by
  rw [op_fx55, fx55Loop_spec (x + 1) 0 s (by omega)]
  congr 1
  refine Processor.ext rfl ?_ rfl rfl rfl rfl rfl rfl rfl rfl rfl
  funext a
  show (if s.index + 0 ≤ a ∧ a < s.index + 0 + (x + 1) then s.registers (a - s.index) else s.memory a) =
    if s.index ≤ a ∧ a ≤ s.index + x then s.registers (a - s.index) else s.memory a
  by_cases h1 : s.index ≤ a ∧ a ≤ s.index + x
  · rw [if_pos (by omega), if_pos h1]
  · rw [if_neg (by omega), if_neg h1]

/-- Witness for `fx55_stores` at `x = 2`, `I = 0x300`. -/
theorem fx55_stores_witness :
    c8WS.index + 2 < MEMORY_SIZE ∧
    op_fx55 2 c8WS = .ok { c8WS with memory := fun a =>
      if c8WS.index ≤ a ∧ a ≤ c8WS.index + 2 then c8WS.registers (a - c8WS.index) else c8WS.memory a } :=
  ⟨by decide, fx55_stores c8WS 2 (by decide)⟩

theorem timer_dec (d : Nat) : (if d > 0 then d - 1 else d) = d - 1 := by
  cases d <;> simp

/-- A `tick` whose fetch is in bounds reduces to dispatching the fetched
opcode on the latched state. -/
theorem tick_fetch (kp : Nat → Bool) (r : Nat) (s : Processor)
    (hpc : s.pc + 1 < MEMORY_SIZE) :
    tick kp r s = run_opcode r { s with
      keypad := kp
      delay_timer := s.delay_timer - 1
      sound_timer := s.sound_timer - 1
      opcode := (s.memory s.pc <<< 8) ||| s.memory (s.pc + 1)
      pc := s.pc + 2 } := by
  have h0 : s.pc < MEMORY_SIZE := by omega
  have h1 : s.pc + 1 ≤ 65535 := by simp [MEMORY_SIZE] at hpc; omega
  have h2 : s.pc + 2 ≤ 65535 := by simp [MEMORY_SIZE] at hpc; omega
  simp [tick, get_opcode, timer_dec, checkIdx_lt _ _ h0, u16add_ok _ _ h1, u16add_ok _ _ h2,
    checkIdx_lt _ _ (show s.pc + 1 < MEMORY_SIZE from hpc)]

theorem run_opcode_o2nnn (r : Nat) (s : Processor) (h : decode_opcode s.opcode = .o2nnn) :
    run_opcode r s = op_2nnn (s.opcode &&& 0x0FFF) s := by
  unfold run_opcode
  rw [h]

theorem run_opcode_o00ee (r : Nat) (s : Processor) (h : decode_opcode s.opcode = .o00ee) :
    run_opcode r s = op_00ee s := by
  unfold run_opcode
  rw [h]

theorem run_opcode_ofx0a (r : Nat) (s : Processor) (h : decode_opcode s.opcode = .ofx0a) :
    run_opcode r s = op_fx0a ((s.opcode &&& 0x0F00) >>> 8) s := by
  unfold run_opcode
  rw [h]

theorem run_opcode_unknown (r : Nat) (s : Processor) (h : decode_opcode s.opcode = .unknown) :
    run_opcode r s = .error "Unknown instruction" := by
  unfold run_opcode
  rw [h]

/-- Claim C6: a CALL tick at `pc` (opcode `2nnn`) followed immediately by a
RET tick (opcode `00EE` at `nnn`) ends with `pc` at the byte after the
CALL and `sp` restored; the only other traces are the latched keypad, the
two timer steps, the fetched `00EE` opcode and the stack slot written by
the CALL. -/
theorem call_then_ret (s : Processor) (nnn : Nat) (kp1 kp2 : Nat → Bool) (r1 r2 : Nat)
    (hsp : s.sp < STACK_SIZE) (hnnn : nnn < 4096)
    (hpc : s.pc + 1 < MEMORY_SIZE) (hret : nnn + 1 < MEMORY_SIZE)
    (hb1 : s.memory s.pc = 0x20 + nnn / 256) (hb2 : s.memory (s.pc + 1) = nnn % 256)
    (hr1 : s.memory nnn = 0x00) (hr2 : s.memory (nnn + 1) = 0xEE) :
    (tick kp1 r1 s >>= tick kp2 r2) = .ok { s with
      keypad := kp2
      delay_timer := s.delay_timer - 1 - 1
      sound_timer := s.sound_timer - 1 - 1
      opcode := 0x00EE
      stack := upd s.stack s.sp (s.pc + 2)
      pc := s.pc + 2 } := by
  have hw1 : (s.memory s.pc <<< 8) ||| s.memory (s.pc + 1) = 0x2000 + nnn := by
    rw [hb1, hb2, shl8_lor _ _ (by omega)]
    omega
  have hn : (0x2000 + nnn) &&& 0x0FFF = nnn := by
    rw [land_0xFFF]; omega
  have hstep1 : tick kp1 r1 s = .ok { s with
      keypad := kp1
      delay_timer := s.delay_timer - 1
      sound_timer := s.sound_timer - 1
      opcode := 0x2000 + nnn
      stack := upd s.stack s.sp (s.pc + 2)
      sp := s.sp + 1
      pc := nnn } := by
    rw [tick_fetch kp1 r1 s hpc]
    rw [run_opcode_o2nnn _ _ (by
      show decode_opcode ((s.memory s.pc <<< 8) ||| s.memory (s.pc + 1)) = .o2nnn
      rw [hw1, decode_opcode_eq, show (0x2000 + nnn) / 4096 % 16 = 0x02 by omega]
      rfl)]
    show op_2nnn (((s.memory s.pc <<< 8) ||| s.memory (s.pc + 1)) &&& 0x0FFF) _ = _
    rw [hw1, hn]
    simp [op_2nnn, checkIdx_lt _ _ (show s.sp < STACK_SIZE from hsp),
      u8add_ok _ _ (show s.sp + 1 ≤ 255 by simp [STACK_SIZE] at hsp; omega)]
  rw [hstep1, ok_bind]
  rw [tick_fetch kp2 r2 _ (show _ + 1 < MEMORY_SIZE from hret)]
  simp only [hr1, hr2]
  rw [run_opcode_o00ee _ _ (by
    show decode_opcode (((0x00 : Nat) <<< 8) ||| 0xEE) = .o00ee
    decide)]
  simp [op_00ee, u8sub_ok _ _ (show (1 : Nat) ≤ s.sp + 1 by omega),
    checkIdx_lt _ _ (show s.sp < STACK_SIZE from hsp), upd]

/-- Witness for `call_then_ret` on a concrete CALL/RET pair. -/
theorem call_then_ret_witness :
    c6WS.sp < STACK_SIZE ∧ (0x300 : Nat) < 4096 ∧ c6WS.pc + 1 < MEMORY_SIZE ∧
    (0x300 : Nat) + 1 < MEMORY_SIZE ∧ c6WS.memory c6WS.pc = 0x20 + 0x300 / 256 ∧
    c6WS.memory (c6WS.pc + 1) = 0x300 % 256 ∧ c6WS.memory 0x300 = 0x00 ∧
    c6WS.memory (0x300 + 1) = 0xEE ∧
    (tick (fun _ => false) 0 c6WS >>= tick (fun _ => false) 0) = .ok { c6WS with
      keypad := fun _ => false
      delay_timer := c6WS.delay_timer - 1 - 1
      sound_timer := c6WS.sound_timer - 1 - 1
      opcode := 0x00EE
      stack := upd c6WS.stack c6WS.sp (c6WS.pc + 2)
      pc := c6WS.pc + 2 } :=
  ⟨by decide, by decide, by decide, by decide, by decide, by decide, by decide, by decide,
    call_then_ret c6WS 0x300 (fun _ => false) (fun _ => false) 0 0 (by decide) (by decide)
      (by decide) (by decide) (by decide) (by decide) (by decide) (by decide)⟩

/-- If the key scan returns `none`, no key in the scanned window is
pressed. -/
theorem keyLoop_none : ∀ (fuel i : Nat) (kp : Nat → Bool),
    keyLoop kp i fuel = none → ∀ j, i ≤ j → j < i + fuel → kp j = false
  | 0, i, kp, _, j, h1, h2 => by omega
  | fuel + 1, i, kp, h, j, h1, h2 => by
    rw [keyLoop] at h
    by_cases hi : kp i = true
    · simp [hi] at h
    · simp [hi] at h
      rcases Nat.eq_or_lt_of_le h1 with rfl | hlt
      · simpa using hi
      · exact keyLoop_none fuel (i + 1) kp h j hlt (by omega)

/-- If the key scan returns `some k`, `k` is the first pressed key in the
scanned window. -/
theorem keyLoop_some : ∀ (fuel i k : Nat) (kp : Nat → Bool),
    keyLoop kp i fuel = some k →
    i ≤ k ∧ k < i + fuel ∧ kp k = true ∧ ∀ j, i ≤ j → j < k → kp j = false
  | 0, i, k, kp, h => by simp [keyLoop] at h
  | fuel + 1, i, k, kp, h => by
    rw [keyLoop] at h
    by_cases hi : kp i = true
    · simp [hi] at h
      subst h
      exact ⟨le_refl _, by omega, hi, fun j h1 h2 => by omega⟩
    · simp [hi] at h
      obtain ⟨ha, hb, hc, hd⟩ := keyLoop_some fuel (i + 1) k kp h
      refine ⟨by omega, by omega, hc, fun j h1 h2 => ?_⟩
      rcases Nat.eq_or_lt_of_le h1 with rfl | hlt
      · simpa using hi
      · exact hd j hlt h2

/-- Claim C7: a tick that executes `Fx0A`.  With no key pressed the
instruction undoes the fetch increment (`pc` is restored, `Vx`
untouched), so the next tick re-executes it; with keys pressed, `Vx`
receives the lowest pressed index and `pc` moves past the instruction. -/
theorem fx0a_wait (s : Processor) (x : Nat) (kp : Nat → Bool) (r : Nat)
    (hx : x < 16) (hpc : s.pc + 1 < MEMORY_SIZE)
    (hb1 : s.memory s.pc = 0xF0 + x) (hb2 : s.memory (s.pc + 1) = 0x0A) :
    (tick kp r s = .ok (match keyLoop kp 0 16 with
      | some k => { s with
          keypad := kp
          delay_timer := s.delay_timer - 1
          sound_timer := s.sound_timer - 1
          opcode := 0xF00A + x * 256
          registers := upd s.registers x k
          pc := s.pc + 2 }
      | none => { s with
          keypad := kp
          delay_timer := s.delay_timer - 1
          sound_timer := s.sound_timer - 1
          opcode := 0xF00A + x * 256
          pc := s.pc })) ∧
    (match keyLoop kp 0 16 with
      | some k => k < 16 ∧ kp k = true ∧ ∀ j, j < k → kp j = false
      | none => ∀ j, j < 16 → kp j = false) := by
  have hw : (s.memory s.pc <<< 8) ||| s.memory (s.pc + 1) = 0xF00A + x * 256 := by
    rw [hb1, hb2, shl8_lor _ _ (by omega)]
    omega
  constructor
  · rw [tick_fetch kp r s hpc]
    rw [run_opcode_ofx0a _ _ (by
      show decode_opcode ((s.memory s.pc <<< 8) ||| s.memory (s.pc + 1)) = .ofx0a
      rw [hw, decode_opcode_eq, show (0xF00A + x * 256) / 4096 % 16 = 0x0F by omega,
        show (0xF00A + x * 256) / 16 % 16 = 0x00 by omega,
        show (0xF00A + x * 256) % 16 = 0x0A by omega]
      rfl)]
    show op_fx0a ((((s.memory s.pc <<< 8) ||| s.memory (s.pc + 1)) &&& 0x0F00) >>> 8) _ = _
    rw [hw, nib2_eq, show (0xF00A + x * 256) / 256 % 16 = x by omega]
    cases hk : keyLoop kp 0 16 with
    | some k => simp [op_fx0a, hk, hw]
    | none => simp [op_fx0a, hk, hw, u16sub_ok _ _ (show (2 : Nat) ≤ s.pc + 2 by omega)]
  · cases hk : keyLoop kp 0 16 with
    | some k =>
      obtain ⟨_, hb', hc, hd⟩ := keyLoop_some 16 0 k kp hk
      exact ⟨by omega, hc, fun j h2 => hd j (by omega) h2⟩
    | none =>
      exact fun j hj => keyLoop_none 16 0 kp hk j (by omega) (by omega)

/-- Witness for `fx0a_wait` with all keys released: `pc` is restored. -/
theorem fx0a_wait_witness :
    (3 : Nat) < 16 ∧ c7WS.pc + 1 < MEMORY_SIZE ∧ c7WS.memory c7WS.pc = 0xF0 + 3 ∧
    c7WS.memory (c7WS.pc + 1) = 0x0A ∧
    ((tick (fun _ => false) 0 c7WS = .ok (match keyLoop (fun _ => false) 0 16 with
      | some k => { c7WS with
          keypad := fun _ => false
          delay_timer := c7WS.delay_timer - 1
          sound_timer := c7WS.sound_timer - 1
          opcode := 0xF00A + 3 * 256
          registers := upd c7WS.registers 3 k
          pc := c7WS.pc + 2 }
      | none => { c7WS with
          keypad := fun _ => false
          delay_timer := c7WS.delay_timer - 1
          sound_timer := c7WS.sound_timer - 1
          opcode := 0xF00A + 3 * 256
          pc := c7WS.pc })) ∧
    (match keyLoop (fun _ => false) 0 16 with
      | some k => k < 16 ∧ (fun _ => false : Nat → Bool) k = true ∧ ∀ j, j < k → (fun _ => false : Nat → Bool) j = false
      | none => ∀ j, j < 16 → (fun _ => false : Nat → Bool) j = false)) :=
  ⟨by decide, by decide, by decide, by decide,
    fx0a_wait c7WS 3 (fun _ => false) 0 (by decide) (by decide) (by decide) (by decide)⟩

/-- Claim C9: the dispatch of `run_opcode` agrees with the spec dispatch
table on every 16-bit opcode — each opcode is routed to exactly one
handler, the one its nibble pattern selects in the table — and every
unlisted pattern is the fatal `Unknown instruction` failure. -/
theorem dispatch_complete (w : Nat) (s : Processor) (r : Nat) (_hw : w < 65536) :
    decode_opcode w = spec_dispatch w ∧
    (decode_opcode w = .unknown → s.opcode = w →
      run_opcode r s = .error "Unknown instruction") := by
  refine ⟨?_, fun h1 h2 => run_opcode_unknown r s (by rw [h2]; exact h1)⟩
  rw [decode_opcode_eq]
  exact nibbles_eq_spec _ _ _ _

/-- Witness for `dispatch_complete` at the unlisted opcode `0x5011`. -/
theorem dispatch_complete_witness :
    (0x5011 : Nat) < 65536 ∧ decode_opcode 0x5011 = spec_dispatch 0x5011 ∧
    run_opcode 0 c9WS = .error "Unknown instruction" :=
  ⟨by decide, (dispatch_complete 0x5011 c9WS 0 (by decide)).1,
    (dispatch_complete 0x5011 c9WS 0 (by decide)).2 (by decide) rfl⟩

theorem videoBits_00e0 (s : Processor) (hv : VideoBits s) : VideoBits (op_00e0 s) := by
  intro Y X
  simp only [op_00e0]
  split
  · omega
  · exact hv Y X

theorem video_op_00ee (s t : Processor) (h : op_00ee s = .ok t) : t.video = s.video := by
  unfold op_00ee at h
  cases hu : u8sub s.sp 1 with
  | error e => rw [hu] at h; simp at h
  | ok v =>
    rw [hu] at h
    simp only [ok_bind] at h
    cases hc : checkIdx STACK_SIZE v with
    | error e => rw [hc] at h; simp at h
    | ok i => rw [hc] at h; simp only [ok_bind, Except.ok.injEq] at h; subst h; rfl

theorem video_op_2nnn (nnn : Nat) (s t : Processor) (h : op_2nnn nnn s = .ok t) :
    t.video = s.video := by
  unfold op_2nnn at h
  cases hc : checkIdx STACK_SIZE s.sp with
  | error e => rw [hc] at h; simp at h
  | ok i =>
    rw [hc] at h
    simp only [ok_bind] at h
    cases hu : u8add s.sp 1 with
    | error e => rw [hu] at h; simp at h
    | ok v => rw [hu] at h; simp only [ok_bind, Except.ok.injEq] at h; subst h; rfl

theorem video_skip_like (s t : Processor) (c : Prop) [Decidable c]
    (h : (if c then (do
        let pc' ← u16add s.pc 2
        Except.ok { s with pc := pc' }) else Except.ok s) = .ok t) :
    t.video = s.video := by
  split at h
  · cases hu : u16add s.pc 2 with
    | error e => rw [hu] at h; simp at h
    | ok v => rw [hu] at h; simp only [ok_bind, Except.ok.injEq] at h; subst h; rfl
  · simp only [Except.ok.injEq] at h; subst h; rfl

theorem video_op_3xkk (x kk : Nat) (s t : Processor) (h : op_3xkk x kk s = .ok t) :
    t.video = s.video := video_skip_like s t _ h

theorem video_op_4xkk (x kk : Nat) (s t : Processor) (h : op_4xkk x kk s = .ok t) :
    t.video = s.video := video_skip_like s t _ h

theorem video_op_5xy0 (x y : Nat) (s t : Processor) (h : op_5xy0 x y s = .ok t) :
    t.video = s.video := video_skip_like s t _ h

theorem video_op_9xy0 (x y : Nat) (s t : Processor) (h : op_9xy0 x y s = .ok t) :
    t.video = s.video := video_skip_like s t _ h

theorem video_op_bnnn (nnn : Nat) (s t : Processor) (h : op_bnnn nnn s = .ok t) :
    t.video = s.video := by
  unfold op_bnnn at h
  cases hu : u16add (s.registers 0) nnn with
  | error e => rw [hu] at h; simp at h
  | ok v => rw [hu] at h; simp only [ok_bind, Except.ok.injEq] at h; subst h; rfl

theorem video_op_ex9e (x : Nat) (s t : Processor) (h : op_ex9e x s = .ok t) :
    t.video = s.video := by
  unfold op_ex9e at h
  dsimp only [] at h
  cases hc : checkIdx KEYPAD_SIZE (s.registers x) with
  | error e => rw [hc] at h; simp at h
  | ok k =>
    rw [hc] at h
    simp only [ok_bind] at h
    exact video_skip_like s t _ h

theorem video_op_exa1 (x : Nat) (s t : Processor) (h : op_exa1 x s = .ok t) :
    t.video = s.video := by
  unfold op_exa1 at h
  dsimp only [] at h
  cases hc : checkIdx KEYPAD_SIZE (s.registers x) with
  | error e => rw [hc] at h; simp at h
  | ok k =>
    rw [hc] at h
    simp only [ok_bind] at h
    exact video_skip_like s t _ h

theorem video_op_fx0a (x : Nat) (s t : Processor) (h : op_fx0a x s = .ok t) :
    t.video = s.video := by
  unfold op_fx0a at h
  split at h
  · simp only [Except.ok.injEq] at h; subst h; rfl
  · cases hu : u16sub s.pc 2 with
    | error e => rw [hu] at h; simp at h
    | ok v => rw [hu] at h; simp only [ok_bind, Except.ok.injEq] at h; subst h; rfl

theorem video_op_fx1e (x : Nat) (s t : Processor) (h : op_fx1e x s = .ok t) :
    t.video = s.video := by
  unfold op_fx1e at h
  cases hu : u16add s.index (s.registers x) with
  | error e => rw [hu] at h; simp at h
  | ok v => rw [hu] at h; simp only [ok_bind, Except.ok.injEq] at h; subst h; rfl

theorem video_op_fx29 (x : Nat) (s t : Processor) (h : op_fx29 x s = .ok t) :
    t.video = s.video := by
  unfold op_fx29 at h
  dsimp only [] at h
  cases hm : u8mul FONT_CHARACTER_BYTES (s.registers x) with
  | error e => rw [hm] at h; simp at h
  | ok p =>
    rw [hm] at h
    simp only [ok_bind] at h
    cases ha : u8add FONTSET_START_ADDRESS p with
    | error e => rw [ha] at h; simp at h
    | ok v => rw [ha] at h; simp only [ok_bind, Except.ok.injEq] at h; subst h; rfl

theorem video_op_fx33 (x : Nat) (s t : Processor) (h : op_fx33 x s = .ok t) :
    t.video = s.video := by
  unfold op_fx33 at h
  dsimp only [] at h
  cases h0 : checkIdx MEMORY_SIZE s.index with
  | error e => rw [h0] at h; simp at h
  | ok a0 =>
    rw [h0] at h
    simp only [ok_bind] at h
    cases h1 : checkIdx MEMORY_SIZE (s.index + 1) with
    | error e => rw [h1] at h; simp at h
    | ok a1 =>
      rw [h1] at h
      simp only [ok_bind] at h
      cases h2 : checkIdx MEMORY_SIZE (s.index + 2) with
      | error e => rw [h2] at h; simp at h
      | ok a2 => rw [h2] at h; simp only [ok_bind, Except.ok.injEq] at h; subst h; rfl

theorem video_fx55Loop : ∀ (fuel i : Nat) (s t : Processor),
    fx55Loop i fuel s = .ok t → t.video = s.video
  | 0, i, s, t, h => by
    rw [fx55Loop] at h
    simp only [Except.ok.injEq] at h
    subst h
    rfl
  | fuel + 1, i, s, t, h => by
    rw [fx55Loop] at h
    cases hc : checkIdx MEMORY_SIZE (s.index + i) with
    | error e => rw [hc] at h; simp at h
    | ok a =>
      rw [hc] at h
      simp only [ok_bind] at h
      exact (video_fx55Loop fuel (i + 1) _ t h).trans rfl

theorem video_fx65Loop : ∀ (fuel i : Nat) (s t : Processor),
    fx65Loop i fuel s = .ok t → t.video = s.video
  | 0, i, s, t, h => by
    rw [fx65Loop] at h
    simp only [Except.ok.injEq] at h
    subst h
    rfl
  | fuel + 1, i, s, t, h => by
    rw [fx65Loop] at h
    cases hc : checkIdx MEMORY_SIZE (s.index + i) with
    | error e => rw [hc] at h; simp at h
    | ok a =>
      rw [hc] at h
      simp only [ok_bind] at h
      exact (video_fx65Loop fuel (i + 1) _ t h).trans rfl

theorem videoBits_drawBit (x yy row bit : Nat) (s t : Processor)
    (h : drawBit x yy row bit s = .ok t) (hv : VideoBits s) : VideoBits t := by
  unfold drawBit at h
  cases hc : checkIdx MEMORY_SIZE (s.index + row) with
  | error e => rw [hc] at h; simp at h
  | ok a =>
    rw [hc] at h
    simp only [ok_bind, Except.ok.injEq] at h
    subst h
    intro Y X
    simp only [upd2]
    split
    · have h1 : s.video yy ((s.registers x + bit) % SCREEN_WIDTH) ≤ 1 := hv _ _
      have h2 : (s.memory a >>> (7 - bit)) &&& 1 ≤ 1 := by
        rw [land_one]
        omega
      interval_cases hh1 : s.video yy ((s.registers x + bit) % SCREEN_WIDTH) <;>
        interval_cases hh2 : (s.memory a >>> (7 - bit)) &&& 1 <;> decide
    · exact hv Y X

theorem videoBits_drawBitsLoop : ∀ (fuel x yy row bit : Nat) (s t : Processor),
    drawBitsLoop x yy row bit fuel s = .ok t → VideoBits s → VideoBits t
  | 0, x, yy, row, bit, s, t, h, hv => by
    rw [drawBitsLoop] at h
    simp only [Except.ok.injEq] at h
    subst h
    exact hv
  | fuel + 1, x, yy, row, bit, s, t, h, hv => by
    rw [drawBitsLoop] at h
    cases hd : drawBit x yy row bit s with
    | error e => rw [hd] at h; simp at h
    | ok u =>
      rw [hd] at h
      simp only [ok_bind] at h
      exact videoBits_drawBitsLoop fuel x yy row (bit + 1) u t h
        (videoBits_drawBit x yy row bit s u hd hv)

theorem videoBits_drawRowsLoop : ∀ (fuel x y row : Nat) (s t : Processor),
    drawRowsLoop x y row fuel s = .ok t → VideoBits s → VideoBits t
  | 0, x, y, row, s, t, h, hv => by
    rw [drawRowsLoop] at h
    simp only [Except.ok.injEq] at h
    subst h
    exact hv
  | fuel + 1, x, y, row, s, t, h, hv => by
    rw [drawRowsLoop] at h
    cases hd : drawBitsLoop x ((s.registers y + row) % SCREEN_HEIGHT) row 0 8 s with
    | error e => rw [hd] at h; simp at h
    | ok u =>
      rw [hd] at h
      simp only [ok_bind] at h
      exact videoBits_drawRowsLoop fuel x y (row + 1) u t h
        (videoBits_drawBitsLoop 8 x _ row 0 s u hd hv)

theorem videoBits_op_dxyn (x y n : Nat) (s t : Processor)
    (h : op_dxyn x y n s = .ok t) (hv : VideoBits s) : VideoBits t := by
  unfold op_dxyn at h
  exact videoBits_drawRowsLoop n x y 0 _ t h (fun Y X => hv Y X)

/-- Source `run_opcode` preserves the 1-bit framebuffer invariant. -/
theorem videoBits_run_opcode (r : Nat) (s t : Processor)
    (h : run_opcode r s = .ok t) (hv : VideoBits s) : VideoBits t := by
  unfold run_opcode at h
  split at h
  case _ => simp only [Except.ok.injEq] at h; subst h; exact videoBits_00e0 s hv
  case _ => intro Y X; rw [video_op_00ee _ _ h]; exact hv Y X
  case _ => simp only [Except.ok.injEq] at h; subst h; exact hv
  case _ => intro Y X; rw [video_op_2nnn _ _ _ h]; exact hv Y X
  case _ => intro Y X; rw [video_op_3xkk _ _ _ _ h]; exact hv Y X
  case _ => intro Y X; rw [video_op_4xkk _ _ _ _ h]; exact hv Y X
  case _ => intro Y X; rw [video_op_5xy0 _ _ _ _ h]; exact hv Y X
  case _ => simp only [Except.ok.injEq] at h; subst h; exact hv
  case _ => simp only [Except.ok.injEq] at h; subst h; exact hv
  case _ => simp only [Except.ok.injEq] at h; subst h; exact hv
  case _ => simp only [Except.ok.injEq] at h; subst h; exact hv
  case _ => simp only [Except.ok.injEq] at h; subst h; exact hv
  case _ => simp only [Except.ok.injEq] at h; subst h; exact hv
  case _ => simp only [Except.ok.injEq] at h; subst h; exact hv
  case _ => simp only [Except.ok.injEq] at h; subst h; exact hv
  case _ => simp only [Except.ok.injEq] at h; subst h; exact hv
  case _ => simp only [Except.ok.injEq] at h; subst h; exact hv
  case _ => simp only [Except.ok.injEq] at h; subst h; exact hv
  case _ => intro Y X; rw [video_op_9xy0 _ _ _ _ h]; exact hv Y X
  case _ => simp only [Except.ok.injEq] at h; subst h; exact hv
  case _ => intro Y X; rw [video_op_bnnn _ _ _ h]; exact hv Y X
  case _ => simp only [Except.ok.injEq] at h; subst h; exact hv
  case _ => exact videoBits_op_dxyn _ _ _ _ _ h hv
  case _ => intro Y X; rw [video_op_ex9e _ _ _ h]; exact hv Y X
  case _ => intro Y X; rw [video_op_exa1 _ _ _ h]; exact hv Y X
  case _ => simp only [Except.ok.injEq] at h; subst h; exact hv
  case _ => intro Y X; rw [video_op_fx0a _ _ _ h]; exact hv Y X
  case _ => simp only [Except.ok.injEq] at h; subst h; exact hv
  case _ => simp only [Except.ok.injEq] at h; subst h; exact hv
  case _ => intro Y X; rw [video_op_fx1e _ _ _ h]; exact hv Y X
  case _ => intro Y X; rw [video_op_fx29 _ _ _ h]; exact hv Y X
  case _ => intro Y X; rw [video_op_fx33 _ _ _ h]; exact hv Y X
  case _ => intro Y X; rw [video_fx55Loop _ _ _ _ h]; exact hv Y X
  case _ => intro Y X; rw [video_fx65Loop _ _ _ _ h]; exact hv Y X
  case _ => simp at h

/-- Claim C10: the framebuffer holds only `0`/`1` cells in every reachable
state — construction zeroes it and every successful `tick` preserves the
invariant (CLS writes `0`, DRW XORs single bits, nothing else writes). -/
theorem video_one_bit (kp : Nat → Bool) (r : Nat) (s t : Processor)
    (hv : VideoBits s) (h : tick kp r s = .ok t) :
    VideoBits Processor.new ∧ VideoBits t := by
  constructor
  · intro Y X
    exact Nat.zero_le 1
  · unfold tick at h
    dsimp only [] at h
    cases hg : get_opcode { s with
        keypad := kp
        delay_timer := if s.delay_timer > 0 then s.delay_timer - 1 else s.delay_timer
        sound_timer := if s.sound_timer > 0 then s.sound_timer - 1 else s.sound_timer } with
    | error e => rw [hg] at h; simp at h
    | ok w =>
      rw [hg] at h
      simp only [ok_bind] at h
      cases hu : u16add s.pc 2 with
      | error e => rw [hu] at h; simp at h
      | ok pcv =>
        rw [hu] at h
        simp only [ok_bind] at h
        exact videoBits_run_opcode r _ t h (fun Y X => hv Y X)

/-- Witness for `video_one_bit` on a concrete CLS tick. -/
theorem video_one_bit_witness :
    VideoBits c10WS ∧ tick (fun _ => false) 0 c10WS = .ok c10T ∧
    (VideoBits Processor.new ∧ VideoBits c10T) :=
  ⟨fun _ _ => Nat.zero_le 1, rfl,
    video_one_bit (fun _ => false) 0 c10WS c10T (fun _ _ => Nat.zero_le 1) rfl⟩

theorem upd_at {α : Type} (f : Nat → α) (i : Nat) (v : α) : upd f i v i = v := by
  simp [upd]

theorem upd_ne {α : Type} (f : Nat → α) (i j : Nat) (v : α) (h : j ≠ i) : upd f i v j = f j := by
  simp [upd, h]

theorem upd_upd {α : Type} (f : Nat → α) (i : Nat) (v w : α) :
    upd (upd f i v) i w = upd f i w := by
  funext j
  simp only [upd]
  split <;> rfl

theorem upd_self {α : Type} (f : Nat → α) (i : Nat) : upd f i (f i) = f := by
  funext j
  simp only [upd]
  split
  · subst ‹j = i›; rfl
  · rfl

theorem bitFind_hit (regx : Nat) : ∀ (fuel bit b : Nat), bit ≤ b → b < bit + fuel →
    bit + fuel ≤ SCREEN_WIDTH →
    bitFind regx bit fuel ((regx + b) % SCREEN_WIDTH) = some b
  | 0, bit, b, h1, h2, h3 => by omega
  | fuel + 1, bit, b, h1, h2, h3 => by
    rw [bitFind]
    rcases Nat.eq_or_lt_of_le h1 with rfl | hlt
    · rw [if_pos rfl]
    · rw [if_neg (by simp only [SCREEN_WIDTH] at h3 ⊢; omega)]
      exact bitFind_hit regx fuel (bit + 1) b hlt (by omega) (by omega)

theorem rowFind_hit (regy : Nat) : ∀ (fuel row r : Nat), row ≤ r → r < row + fuel →
    row + fuel ≤ SCREEN_HEIGHT →
    rowFind regy row fuel ((regy + r) % SCREEN_HEIGHT) = some r
  | 0, row, r, h1, h2, h3 => by omega
  | fuel + 1, row, r, h1, h2, h3 => by
    rw [rowFind]
    rcases Nat.eq_or_lt_of_le h1 with rfl | hlt
    · rw [if_pos rfl]
    · rw [if_neg (by simp only [SCREEN_HEIGHT] at h3 ⊢; omega)]
      exact rowFind_hit regy fuel (row + 1) r hlt (by omega) (by omega)

theorem bitFind_miss (regx : Nat) : ∀ (fuel bit X : Nat),
    (∀ b, bit ≤ b → b < bit + fuel → (regx + b) % SCREEN_WIDTH ≠ X) →
    bitFind regx bit fuel X = none
  | 0, bit, X, _ => rfl
  | fuel + 1, bit, X, h => by
    rw [bitFind, if_neg (h bit (le_refl _) (by omega))]
    exact bitFind_miss regx fuel (bit + 1) X (fun b h1 h2 => h b (by omega) (by omega))

theorem rowFind_miss (regy : Nat) : ∀ (fuel row Y : Nat),
    (∀ r, row ≤ r → r < row + fuel → (regy + r) % SCREEN_HEIGHT ≠ Y) →
    rowFind regy row fuel Y = none
  | 0, row, Y, _ => rfl
  | fuel + 1, row, Y, h => by
    rw [rowFind, if_neg (h row (le_refl _) (by omega))]
    exact rowFind_miss regy fuel (row + 1) Y (fun r h1 h2 => h r (by omega) (by omega))

theorem bitsCollideF_congr (regx byteVal yy : Nat) (vid vid' : Nat → Nat → Nat) :
    ∀ (fuel bit : Nat),
    (∀ b, bit ≤ b → b < bit + fuel →
      vid' yy ((regx + b) % SCREEN_WIDTH) = vid yy ((regx + b) % SCREEN_WIDTH)) →
    bitsCollideF regx vid' byteVal yy bit fuel = bitsCollideF regx vid byteVal yy bit fuel
  | 0, bit, _ => rfl
  | fuel + 1, bit, h => by
    rw [bitsCollideF, bitsCollideF, h bit (le_refl _) (by omega),
      bitsCollideF_congr regx byteVal yy vid vid' fuel (bit + 1)
        (fun b h1 h2 => h b (by omega) (by omega))]

theorem rowsCollideF_congr (regx regy : Nat) (mem : Nat → Nat) (I : Nat)
    (vid vid' : Nat → Nat → Nat) : ∀ (fuel row : Nat),
    (∀ r X, row ≤ r → r < row + fuel →
      vid' ((regy + r) % SCREEN_HEIGHT) X = vid ((regy + r) % SCREEN_HEIGHT) X) →
    rowsCollideF regx regy vid' mem I row fuel = rowsCollideF regx regy vid mem I row fuel
  | 0, row, _ => rfl
  | fuel + 1, row, h => by
    rw [rowsCollideF, rowsCollideF,
      bitsCollideF_congr regx (mem (I + row)) ((regy + row) % SCREEN_HEIGHT) vid vid' 8 0
        (fun b _ _ => h row _ (le_refl _) (by omega)),
      rowsCollideF_congr regx regy mem I vid vid' fuel (row + 1)
        (fun r X h1 h2 => h r X (by omega) (by omega))]

theorem rowVid_step (regx byteVal yy bit fuel : Nat) (vid : Nat → Nat → Nat)
    (h8 : bit + fuel + 1 ≤ 8) :
    rowVid regx byteVal yy (bit + 1) fuel
      (upd2 vid yy ((regx + bit) % SCREEN_WIDTH)
        (vid yy ((regx + bit) % SCREEN_WIDTH) ^^^ ((byteVal >>> (7 - bit)) &&& 1)))
    = rowVid regx byteVal yy bit (fuel + 1) vid := by
  funext Y X
  simp only [rowVid]
  by_cases hy : Y = yy
  · subst hy
    rw [bitFind]
    by_cases hx0 : (regx + bit) % SCREEN_WIDTH = X
    · rw [if_pos hx0]
      rw [bitFind_miss regx fuel (bit + 1) X (by
        intro b h1 h2 hmod
        rw [← hx0] at hmod
        simp only [SCREEN_WIDTH] at hmod h8
        omega)]
      subst hx0
      simp [upd2]
    · rw [if_neg hx0]
      have hx0' : ¬ (Y = Y ∧ X = (regx + bit) % SCREEN_WIDTH) := by
        intro hc
        exact hx0 hc.2.symm
      cases hbf : bitFind regx (bit + 1) fuel X <;>
        simp [hbf, upd2, hx0', if_pos rfl] <;>
        exact fun hc => absurd hc.symm hx0
  · have hy' : ∀ Z, ¬ (Y = yy ∧ Z = (regx + bit) % SCREEN_WIDTH) := fun Z hc => hy hc.1
    cases hbf : bitFind regx (bit + 1) fuel X <;>
      simp [hbf, hy, upd2, hy' X]

theorem drawBitsLoop_spec (x yy row : Nat) (hx : x ≠ CARRY_REGISTER) :
    ∀ (fuel bit : Nat) (s : Processor), bit + fuel ≤ 8 → s.index + row < MEMORY_SIZE →
    drawBitsLoop x yy row bit fuel s = .ok { s with
      registers := upd s.registers CARRY_REGISTER
        (s.registers CARRY_REGISTER |||
          bitsCollideF (s.registers x) s.video (s.memory (s.index + row)) yy bit fuel)
      video := rowVid (s.registers x) (s.memory (s.index + row)) yy bit fuel s.video }
  | 0, bit, s, h8, hI => by
    rw [drawBitsLoop]
    congr 1
    refine Processor.ext ?_ rfl rfl rfl rfl rfl rfl rfl rfl ?_ rfl
    · show s.registers = upd s.registers CARRY_REGISTER
        (s.registers CARRY_REGISTER ||| bitsCollideF (s.registers x) s.video (s.memory (s.index + row)) yy bit 0)
      rw [show bitsCollideF (s.registers x) s.video (s.memory (s.index + row)) yy bit 0 = 0 from rfl,
        Nat.or_zero, upd_self]
    · funext Y X
      show s.video Y X = rowVid (s.registers x) (s.memory (s.index + row)) yy bit 0 s.video Y X
      simp only [rowVid, bitFind]
      split <;> rfl
  | fuel + 1, bit, s, h8, hI => by
    rw [drawBitsLoop]
    simp only [drawBit, checkIdx_lt _ _ hI, ok_bind]
    rw [drawBitsLoop_spec x yy row hx fuel (bit + 1)]
    · congr 1
      refine Processor.ext ?_ rfl rfl rfl rfl rfl rfl rfl rfl ?_ rfl
      · dsimp only []
        rw [upd_upd, upd_at, upd_ne s.registers CARRY_REGISTER x _ hx]
        rw [bitsCollideF_congr (s.registers x) (s.memory (s.index + row)) yy s.video _ fuel (bit + 1) (by
          intro b h1 h2
          simp only [upd2]
          rw [if_neg]
          intro hc
          have hc2 := hc.2
          simp only [SCREEN_WIDTH] at hc2 h8
          omega)]
        rw [show bitsCollideF (s.registers x) s.video (s.memory (s.index + row)) yy bit (fuel + 1) =
          (((s.memory (s.index + row)) >>> (7 - bit)) &&& 1 &&& s.video yy ((s.registers x + bit) % SCREEN_WIDTH)) |||
            bitsCollideF (s.registers x) s.video (s.memory (s.index + row)) yy (bit + 1) fuel from rfl]
        rw [Nat.or_assoc]
      · dsimp only []
        rw [upd_ne s.registers CARRY_REGISTER x _ hx]
        exact rowVid_step (s.registers x) (s.memory (s.index + row)) yy bit fuel s.video (by omega)
    · omega
    · exact hI

theorem rowsVid_step (regx regy : Nat) (mem : Nat → Nat) (I row fuel : Nat)
    (vid : Nat → Nat → Nat) (h32 : row + fuel + 1 ≤ 32) :
    rowsVid regx regy mem I (row + 1) fuel
      (rowVid regx (mem (I + row)) ((regy + row) % SCREEN_HEIGHT) 0 8 vid)
    = rowsVid regx regy mem I row (fuel + 1) vid := by
  funext Y X
  simp only [rowsVid]
  rw [rowFind]
  by_cases hr0 : (regy + row) % SCREEN_HEIGHT = Y
  · rw [if_pos hr0]
    rw [rowFind_miss regy fuel (row + 1) Y (by
      intro r h1 h2 hmod
      rw [← hr0] at hmod
      simp only [SCREEN_HEIGHT] at hmod h32
      omega)]
    cases hbf : bitFind regx 0 8 X
    · simp [rowVid, ← hr0, hbf]
    · simp [rowVid, ← hr0, hbf, drawColor]
  · rw [if_neg hr0]
    have hr0' : ¬ Y = (regy + row) % SCREEN_HEIGHT := fun h => hr0 h.symm
    cases hrf : rowFind regy (row + 1) fuel Y
    · simp [hrf, rowVid, hr0']
    · cases hbf : bitFind regx 0 8 X
      · simp [hrf, hbf, rowVid, hr0']
      · simp [hrf, hbf, rowVid, hr0']

theorem drawRowsLoop_spec (x y : Nat) (hx : x ≠ CARRY_REGISTER) (hy : y ≠ CARRY_REGISTER) :
    ∀ (fuel row : Nat) (s : Processor), row + fuel ≤ 32 → s.index + row + fuel ≤ MEMORY_SIZE →
    drawRowsLoop x y row fuel s = .ok { s with
      registers := upd s.registers CARRY_REGISTER
        (s.registers CARRY_REGISTER |||
          rowsCollideF (s.registers x) (s.registers y) s.video s.memory s.index row fuel)
      video := rowsVid (s.registers x) (s.registers y) s.memory s.index row fuel s.video }
  | 0, row, s, h32, hI => by
    rw [drawRowsLoop]
    congr 1
    refine Processor.ext ?_ rfl rfl rfl rfl rfl rfl rfl rfl rfl rfl
    show s.registers = upd s.registers CARRY_REGISTER
      (s.registers CARRY_REGISTER |||
        rowsCollideF (s.registers x) (s.registers y) s.video s.memory s.index row 0)
    rw [show rowsCollideF (s.registers x) (s.registers y) s.video s.memory s.index row 0 = 0 from rfl,
      Nat.or_zero, upd_self]
  | fuel + 1, row, s, h32, hI => by
    rw [drawRowsLoop]
    rw [drawBitsLoop_spec x ((s.registers y + row) % SCREEN_HEIGHT) row hx 8 0 s (by omega)
      (by omega)]
    rw [ok_bind]
    rw [drawRowsLoop_spec x y hx hy fuel (row + 1)]
    · congr 1
      refine Processor.ext ?_ rfl rfl rfl rfl rfl rfl rfl rfl ?_ rfl
      · dsimp only []
        rw [upd_upd, upd_at, upd_ne s.registers CARRY_REGISTER x _ hx,
          upd_ne s.registers CARRY_REGISTER y _ hy]
        rw [rowsCollideF_congr (s.registers x) (s.registers y) s.memory s.index s.video _ fuel (row + 1) (by
          intro r X h1 h2
          simp only [rowVid]
          rw [if_neg]
          intro hc
          simp only [SCREEN_HEIGHT] at hc h32
          omega)]
        rw [show rowsCollideF (s.registers x) (s.registers y) s.video s.memory s.index row (fuel + 1) =
          bitsCollideF (s.registers x) s.video (s.memory (s.index + row)) ((s.registers y + row) % SCREEN_HEIGHT) 0 8 |||
            rowsCollideF (s.registers x) (s.registers y) s.video s.memory s.index (row + 1) fuel from rfl]
        rw [Nat.or_assoc]
      · dsimp only []
        rw [upd_ne s.registers CARRY_REGISTER x _ hx, upd_ne s.registers CARRY_REGISTER y _ hy]
        exact rowsVid_step (s.registers x) (s.registers y) s.memory s.index row fuel s.video
          (by omega)
    · omega
    · simpa using by omega

/-- Full characterization of one in-bounds sprite draw with `x, y ≠ 0xF`:
`VF` receives the collision OR, the framebuffer gets the sprite XOR-ed in
with both axes wrapped, and nothing else changes. -/
theorem op_dxyn_spec (x y n : Nat) (s : Processor) (hx : x ≠ CARRY_REGISTER)
    (hy : y ≠ CARRY_REGISTER) (hn : n ≤ 32) (hI : s.index + n ≤ MEMORY_SIZE) :
    op_dxyn x y n s = .ok { s with
      registers := upd s.registers CARRY_REGISTER
        (rowsCollideF (s.registers x) (s.registers y) s.video s.memory s.index 0 n)
      video := rowsVid (s.registers x) (s.registers y) s.memory s.index 0 n s.video } := by
  unfold op_dxyn
  dsimp only []
  rw [drawRowsLoop_spec x y hx hy n 0]
  · congr 1
    refine Processor.ext ?_ rfl rfl rfl rfl rfl rfl rfl rfl ?_ rfl
    · dsimp only []
      rw [upd_upd, upd_at, upd_ne s.registers CARRY_REGISTER x _ hx,
        upd_ne s.registers CARRY_REGISTER y _ hy, Nat.zero_or]
    · dsimp only []
      rw [upd_ne s.registers CARRY_REGISTER x _ hx, upd_ne s.registers CARRY_REGISTER y _ hy]
  · omega
  · show s.index + 0 + n ≤ MEMORY_SIZE
    omega

/-- Drawing the same sprite twice restores the framebuffer (XOR
involution), pointwise on the overlay description. -/
theorem rowsVid_invol (regx regy : Nat) (mem : Nat → Nat) (I row fuel : Nat)
    (vid : Nat → Nat → Nat) :
    rowsVid regx regy mem I row fuel (rowsVid regx regy mem I row fuel vid) = vid := by
  funext Y X
  simp only [rowsVid]
  cases hrf : rowFind regy row fuel Y
  · simp [hrf]
  · cases hbf : bitFind regx 0 8 X
    · simp [hrf, hbf]
    · simp [hrf, hbf, Nat.xor_cancel_right]

/-- Reading a drawn pixel: the overlay at a hit position is the original
pixel XOR the sprite bit. -/
theorem rowsVid_at_hit (regx regy : Nat) (mem : Nat → Nat) (I n row b : Nat)
    (vid : Nat → Nat → Nat) (hrow : row < n) (hn : n ≤ 32) (hb : b < 8) :
    rowsVid regx regy mem I 0 n vid ((regy + row) % SCREEN_HEIGHT) ((regx + b) % SCREEN_WIDTH) =
      vid ((regy + row) % SCREEN_HEIGHT) ((regx + b) % SCREEN_WIDTH) ^^^ drawColor mem I row b := by
  simp only [rowsVid]
  rw [rowFind_hit regy n 0 row (by omega) (by omega) (by simp [SCREEN_HEIGHT]; omega),
    bitFind_hit regx 8 0 b (by omega) (by omega) (by decide)]

/-- The collision bits of the second of two identical draws are exactly
the off-pixel hits of the first, bit level. -/
theorem bitsCollideF_drawn (regx regy : Nat) (mem : Nat → Nat) (I n row : Nat)
    (vid : Nat → Nat → Nat) (hrow : row < n) (hn : n ≤ 32) :
    ∀ (fuel bit : Nat), bit + fuel ≤ 8 →
    bitsCollideF regx (rowsVid regx regy mem I 0 n vid) (mem (I + row))
        ((regy + row) % SCREEN_HEIGHT) bit fuel =
      bitsOff regx vid (mem (I + row)) ((regy + row) % SCREEN_HEIGHT) bit fuel
  | 0, bit, _ => rfl
  | fuel + 1, bit, h8 => by
    rw [bitsCollideF, bitsOff,
      rowsVid_at_hit regx regy mem I n row bit vid hrow hn (by omega),
      bitsCollideF_drawn regx regy mem I n row vid hrow hn fuel (bit + 1) (by omega)]
    rfl

/-- Row-level version of `bitsCollideF_drawn`. -/
theorem rowsCollideF_drawn (regx regy : Nat) (mem : Nat → Nat) (I n : Nat)
    (vid : Nat → Nat → Nat) (hn : n ≤ 32) :
    ∀ (fuel row : Nat), row + fuel ≤ n →
    rowsCollideF regx regy (rowsVid regx regy mem I 0 n vid) mem I row fuel =
      rowsOff regx regy vid mem I row fuel
  | 0, row, _ => rfl
  | fuel + 1, row, h => by
    rw [rowsCollideF, rowsOff,
      bitsCollideF_drawn regx regy mem I n row vid (by omega) hn 8 0 (by omega),
      rowsCollideF_drawn regx regy mem I n vid hn fuel (row + 1) (by omega)]

theorem lor_le_one {a b : Nat} (ha : a ≤ 1) (hb : b ≤ 1) : a ||| b ≤ 1 := by
  interval_cases a <;> interval_cases b <;> decide

theorem lor_eq_one_iff {a b : Nat} (ha : a ≤ 1) (hb : b ≤ 1) :
    a ||| b = 1 ↔ a = 1 ∨ b = 1 := by
  interval_cases a <;> interval_cases b <;> decide

/-- One off-hit term: value and characterization. -/
theorem offTerm_le_one (c v : Nat) : (c &&& 1) &&& (v ^^^ (c &&& 1)) ≤ 1 := by
  calc (c &&& 1) &&& (v ^^^ (c &&& 1)) ≤ c &&& 1 := Nat.and_le_left
  _ ≤ 1 := by rw [land_one]; omega

theorem offTerm_eq_one_iff (c v : Nat) :
    (c &&& 1) &&& (v ^^^ (c &&& 1)) = 1 ↔ c &&& 1 = 1 ∧ v % 2 = 0 := by
  have hc : c &&& 1 = 0 ∨ c &&& 1 = 1 := by rw [land_one]; omega
  rcases hc with hc | hc
  · simp [hc]
  · rw [hc]
    have h1 : (1 : Nat) &&& (v ^^^ 1) = (v ^^^ 1) &&& 1 := Nat.land_comm _ _
    have h2 : (v ^^^ 1) &&& 1 = (v &&& 1) ^^^ (1 &&& 1) := Nat.and_xor_distrib_right
    rw [h1, h2]
    have hv : v &&& 1 = 0 ∨ v &&& 1 = 1 := by rw [land_one]; omega
    rcases hv with hv | hv <;>
      · rw [hv]
        rw [land_one] at hv
        simp [hv]

theorem bitsOff_le_one (regx : Nat) (vid : Nat → Nat → Nat) (byteVal yy : Nat) :
    ∀ (fuel bit : Nat), bitsOff regx vid byteVal yy bit fuel ≤ 1
  | 0, _ => Nat.zero_le 1
  | fuel + 1, bit => by
    rw [bitsOff]
    exact lor_le_one (offTerm_le_one _ _) (bitsOff_le_one regx vid byteVal yy fuel (bit + 1))

theorem rowsOff_le_one (regx regy : Nat) (vid : Nat → Nat → Nat) (mem : Nat → Nat) (I : Nat) :
    ∀ (fuel row : Nat), rowsOff regx regy vid mem I row fuel ≤ 1
  | 0, _ => Nat.zero_le 1
  | fuel + 1, row => by
    rw [rowsOff]
    exact lor_le_one (bitsOff_le_one _ _ _ _ 8 0) (rowsOff_le_one regx regy vid mem I fuel (row + 1))

theorem bitsOff_eq_one_iff (regx : Nat) (vid : Nat → Nat → Nat) (byteVal yy : Nat) :
    ∀ (fuel bit : Nat), bitsOff regx vid byteVal yy bit fuel = 1 ↔
      ∃ b, bit ≤ b ∧ b < bit + fuel ∧ (byteVal >>> (7 - b)) &&& 1 = 1 ∧
        vid yy ((regx + b) % SCREEN_WIDTH) % 2 = 0
  | 0, bit => by
    rw [show bitsOff regx vid byteVal yy bit 0 = 0 from rfl]
    constructor
    · intro h
      exact absurd h (by decide)
    · rintro ⟨b, h1, h2, _, _⟩
      omega
  | fuel + 1, bit => by
    rw [bitsOff, lor_eq_one_iff (offTerm_le_one _ _) (bitsOff_le_one regx vid byteVal yy fuel (bit + 1)),
      offTerm_eq_one_iff, bitsOff_eq_one_iff regx vid byteVal yy fuel (bit + 1)]
    constructor
    · rintro (⟨hc, hv⟩ | ⟨b, h1, h2, h3, h4⟩)
      · exact ⟨bit, le_refl _, by omega, hc, hv⟩
      · exact ⟨b, by omega, by omega, h3, h4⟩
    · rintro ⟨b, h1, h2, h3, h4⟩
      rcases Nat.eq_or_lt_of_le h1 with rfl | hlt
      · exact Or.inl ⟨h3, h4⟩
      · exact Or.inr ⟨b, hlt, by omega, h3, h4⟩

theorem rowsOff_eq_one_iff (regx regy : Nat) (vid : Nat → Nat → Nat) (mem : Nat → Nat) (I : Nat) :
    ∀ (fuel row : Nat), rowsOff regx regy vid mem I row fuel = 1 ↔
      ∃ r, row ≤ r ∧ r < row + fuel ∧ ∃ b, b < 8 ∧ (mem (I + r) >>> (7 - b)) &&& 1 = 1 ∧
        vid ((regy + r) % SCREEN_HEIGHT) ((regx + b) % SCREEN_WIDTH) % 2 = 0
  | 0, row => by
    rw [show rowsOff regx regy vid mem I row 0 = 0 from rfl]
    constructor
    · intro h
      exact absurd h (by decide)
    · rintro ⟨r, h1, h2, _⟩
      omega
  | fuel + 1, row => by
    rw [rowsOff, lor_eq_one_iff (bitsOff_le_one _ _ _ _ 8 0)
        (rowsOff_le_one regx regy vid mem I fuel (row + 1)),
      bitsOff_eq_one_iff, rowsOff_eq_one_iff regx regy vid mem I fuel (row + 1)]
    constructor
    · rintro (⟨b, _, hb2, hb3, hb4⟩ | ⟨r, h1, h2, hb⟩)
      · exact ⟨row, le_refl _, by omega, b, by omega, hb3, hb4⟩
      · exact ⟨r, by omega, by omega, hb⟩
    · rintro ⟨r, h1, h2, b, hb1, hb2, hb3⟩
      rcases Nat.eq_or_lt_of_le h1 with rfl | hlt
      · exact Or.inl ⟨b, by omega, by omega, hb2, hb3⟩
      · exact Or.inr ⟨r, hlt, by omega, b, hb1, hb2, hb3⟩

/-- Claim C5 as amended: for `x ≠ 0xF`, `y ≠ 0xF`, `n ≤ 32` and an
in-bounds sprite, two identical draws leave every field of the machine —
including the whole framebuffer — unchanged except `VF`, and the second
draw sets `VF = 1` iff some `1` bit of the sprite covers a pixel whose
low bit was `0` before the first draw (so from a cleared framebuffer:
iff any sprite bit is `1`). -/
theorem dxyn_twice (x y n : Nat) (s : Processor) (hx : x ≠ CARRY_REGISTER)
    (hy : y ≠ CARRY_REGISTER) (hn : n ≤ 32) (hI : s.index + n ≤ MEMORY_SIZE) :
    (op_dxyn x y n s >>= op_dxyn x y n) = .ok { s with
      registers := upd s.registers CARRY_REGISTER
        (rowsOff (s.registers x) (s.registers y) s.video s.memory s.index 0 n) } ∧
    rowsOff (s.registers x) (s.registers y) s.video s.memory s.index 0 n ≤ 1 ∧
    (rowsOff (s.registers x) (s.registers y) s.video s.memory s.index 0 n = 1 ↔
      ∃ r, r < n ∧ ∃ b, b < 8 ∧ drawColor s.memory s.index r b = 1 ∧
        s.video ((s.registers y + r) % SCREEN_HEIGHT) ((s.registers x + b) % SCREEN_WIDTH) % 2 = 0) := by
  refine ⟨?_, rowsOff_le_one _ _ _ _ _ n 0, ?_⟩
  · rw [op_dxyn_spec x y n s hx hy hn hI, ok_bind]
    rw [op_dxyn_spec x y n _ hx hy hn]
    · congr 1
      refine Processor.ext ?_ rfl rfl rfl rfl rfl rfl rfl rfl ?_ rfl
      · dsimp only []
        rw [upd_upd, upd_ne s.registers CARRY_REGISTER x _ hx,
          upd_ne s.registers CARRY_REGISTER y _ hy,
          rowsCollideF_drawn (s.registers x) (s.registers y) s.memory s.index n s.video hn n 0
            (by omega)]
      · dsimp only []
        rw [upd_ne s.registers CARRY_REGISTER x _ hx, upd_ne s.registers CARRY_REGISTER y _ hy]
        exact rowsVid_invol (s.registers x) (s.registers y) s.memory s.index 0 n s.video
    · show s.index + n ≤ MEMORY_SIZE
      exact hI
  · rw [rowsOff_eq_one_iff]
    constructor
    · rintro ⟨r, _, h2, hb⟩
      exact ⟨r, by omega, hb⟩
    · rintro ⟨r, h1, hb⟩
      exact ⟨r, by omega, by omega, hb⟩

/-- Claim C5, counterexample.  (1) From a state with a lit pixel under the
sprite, two identical `D011` draws end with `VF = 0` although the sprite
has a `1` bit — refuting "the second draw sets `VF = 1` iff any bit of
the sprite was 1" for arbitrary start states.  (2) With `y = 0xF` the
mid-draw `VF` writes shift the second draw's rows, so two identical
`D0F2` draws do NOT restore the framebuffer: pixel `(1,0)` ends lit. -/
theorem dxyn_twice_not_spriteful :
    (resVF (op_dxyn 0 1 1 c5A >>= op_dxyn 0 1 1) = 0 ∧ c5A.memory 0x300 ≠ 0) ∧
    (resVid (op_dxyn 0 15 2 c5B >>= op_dxyn 0 15 2) 1 0 = 1 ∧ c5B.video 1 0 = 0) := by
  decide

/-- Witness for `dxyn_twice`: a `D011` draw performed twice from a blank
screen; the sprite hits an off pixel, so the second draw reports
`VF = 1`. -/
theorem dxyn_twice_witness :
    (0 ≠ CARRY_REGISTER ∧ 1 ≠ CARRY_REGISTER ∧ 1 ≤ 32 ∧ c5WS.index + 1 ≤ MEMORY_SIZE) ∧
    (op_dxyn 0 1 1 c5WS >>= op_dxyn 0 1 1) = .ok { c5WS with
      registers := upd c5WS.registers CARRY_REGISTER
        (rowsOff (c5WS.registers 0) (c5WS.registers 1) c5WS.video c5WS.memory c5WS.index 0 1) } ∧
    rowsOff (c5WS.registers 0) (c5WS.registers 1) c5WS.video c5WS.memory c5WS.index 0 1 ≤ 1 ∧
    (rowsOff (c5WS.registers 0) (c5WS.registers 1) c5WS.video c5WS.memory c5WS.index 0 1 = 1 ↔
      ∃ r, r < 1 ∧ ∃ b, b < 8 ∧ drawColor c5WS.memory c5WS.index r b = 1 ∧
        c5WS.video ((c5WS.registers 1 + r) % SCREEN_HEIGHT) ((c5WS.registers 0 + b) % SCREEN_WIDTH) % 2 = 0) :=
  ⟨⟨by decide, by decide, by decide, by decide⟩,
    (dxyn_twice 0 1 1 c5WS (by decide) (by decide) (by decide) (by decide)).1,
    (dxyn_twice 0 1 1 c5WS (by decide) (by decide) (by decide) (by decide)).2.1,
    (dxyn_twice 0 1 1 c5WS (by decide) (by decide) (by decide) (by decide)).2.2⟩

end Chip8
